import Mathlib

/-!
Shallow embedding of the audit engine of the Better Compaction Protocol
repository: `context_auditor.py` (claim extraction, verification, scoring,
regression detection), the regression block of `context_autoarchive.py`,
and `compare_claims` of `context_rerunner.py`.

Modelling conventions:
* Python strings are lists of characters (`Str`); Python floats are
  rationals (`Rat`); Python dictionaries are association lists whose keys
  are unique (Python dicts cannot hold duplicate keys).
* Regular-expression scans from the source are rendered as explicit
  left-to-right scanners with the same match and backtracking behaviour;
  each scanner carries a fuel argument that is always called with at least
  the length of the scanned text, which is enough for scans that advance
  at least one character per step.
* JSON metadata fields that are merely copied through (timestamps, session
  ids, file names) are omitted from the embedded records.
-/

set_option maxRecDepth 16000

/-- Python strings are modelled as lists of characters. -/
abbrev Str := List Char

/-- Python `str.lower` (the texts involved are ASCII). -/
def pyLower (s : Str) : Str := s.map Char.toLower

/-- Python `str.upper`. -/
def pyUpper (s : Str) : Str := s.map Char.toUpper

/-- Python substring containment, `needle in hay`. -/
def isSubOf (needle hay : Str) : Bool :=
  match hay with
  | [] => needle.isEmpty
  | _ :: t => needle.isPrefixOf hay || isSubOf needle t

/-- Whitespace as matched by Python's `str.strip`/`str.split`/`\s`. -/
def isSpaceChar (c : Char) : Bool := c.isWhitespace

/-- Python `str.strip()`. -/
def trimBoth (s : Str) : Str :=
  ((s.dropWhile isSpaceChar).reverse.dropWhile isSpaceChar).reverse

/-- A word character, Python's `\w` on ASCII text. -/
def isWordChar (c : Char) : Bool := c.isAlphanum || c = '_'

/-- Worker for `pySplitWS`; the fuel always exceeds the text length. -/
def pySplitWSGo : Nat → Str → List Str
  | 0, _ => []
  | _, [] => []
  | fuel + 1, c :: t =>
    if isSpaceChar c then pySplitWSGo fuel t
    else
      (c :: t.takeWhile (fun x => !isSpaceChar x)) ::
        pySplitWSGo fuel (t.dropWhile (fun x => !isSpaceChar x))

/-- Python `str.split()` (split on whitespace runs, dropping empty parts). -/
def pySplitWS (s : Str) : List Str := pySplitWSGo (s.length + 1) s

/-- Python `str.split(sep)` for a one-character separator (keeps empties). -/
def pySplitOnChar (sep : Char) : Str → List Str
  | [] => [[]]
  | c :: t =>
    if c = sep then [] :: pySplitOnChar sep t
    else
      match pySplitOnChar sep t with
      | [] => [[c]]
      | w :: rest => (c :: w) :: rest

/-- Lexicographic (code-point) order on strings, as Python string `<=`. -/
def strLeB : Str → Str → Bool
  | [], _ => true
  | _ :: _, [] => false
  | a :: s, b :: t =>
    if a.val < b.val then true
    else if b.val < a.val then false
    else strLeB s t

/-- Insert into a sorted list (helper for `insort`). -/
def insertSorted (le : α → α → Bool) (x : α) : List α → List α
  | [] => [x]
  | y :: t => if le x y then x :: y :: t else y :: insertSorted le x t

/-- Insertion sort, used to model Python's `sorted`. -/
def insort (le : α → α → Bool) : List α → List α
  | [] => []
  | x :: t => insertSorted le x (insort le t)

/-- Keep the first occurrence of each element (helper for `dedupKeep`). -/
def dedupKeepGo [BEq α] (seen : List α) : List α → List α
  | [] => []
  | x :: t => if seen.contains x then dedupKeepGo seen t else x :: dedupKeepGo (x :: seen) t

/-- Deduplicate keeping first occurrences; models Python `set` contents. -/
def dedupKeep [BEq α] (l : List α) : List α := dedupKeepGo [] l

/-- `' '.join` on a list of strings. -/
def joinWithChar (sep : Char) : List Str → Str
  | [] => []
  | [s] => s
  | s :: t => s ++ sep :: joinWithChar sep t

/-! ## Severity tables (`context_auditor.py` lines 37-51) -/

/-- `CATEGORY_SEVERITY.get(category, 'INFO')`. -/
def CATEGORY_SEVERITY (category : Str) : Str :=
  if category = "File Paths".data then "CRITICAL".data
  else if category = "Functions/Classes".data then "CRITICAL".data
  else if category = "Tools Used".data then "MAJOR".data
  else if category = "User Quotes".data then "MAJOR".data
  else if category = "Topics".data then "MINOR".data
  else if category = "Turn Counts".data then "INFO".data
  else "INFO".data

/-- `SEVERITY_WEIGHT.get(severity, 1)`. -/
def SEVERITY_WEIGHT (sev : Str) : Nat :=
  if sev = "CRITICAL".data then 4
  else if sev = "MAJOR".data then 3
  else if sev = "MINOR".data then 2
  else if sev = "INFO".data then 1
  else 1

/-! ## Data model -/

/-- One verification result, the dicts `{'claim': ..., 'status': ...}`. -/
structure VResult where
  claim : Str
  status : Str
deriving DecidableEq

/-- One parsed archive turn (`parse_turns`). -/
structure Turn where
  number : Nat
  role : Str
  time : Str
  content : Str
deriving DecidableEq

/-- Archive header metadata (`parse_session_header`), restricted to the
fields the embedded verifiers read. -/
structure ArchiveMeta where
  tools_used : Str
  turns : Nat
deriving DecidableEq

/-- `' '.join(t['content'] for t in turns if t['role'] == 'user').lower()`. -/
def userTurnText (turns : List Turn) : Str :=
  pyLower (joinWithChar ' ' ((turns.filter (fun t => t.role == "user".data)).map Turn.content))

/-- `' '.join(t['content'] for t in turns).lower()` (deep search). -/
def allTurnText (turns : List Turn) : Str :=
  pyLower (joinWithChar ' ' (turns.map Turn.content))

/-! ## Verifiers (`context_auditor.py` lines 460-571) -/

/-- `verify_tools`: claimed tool names against the comma-separated
`Tools Used` header field. -/
def verify_tools (claimed_tools : List Str) (meta : ArchiveMeta) : List VResult :=
  let archive_tools := (pySplitOnChar ',' meta.tools_used).map trimBoth
  claimed_tools.map (fun tool =>
    { claim := tool,
      status := if archive_tools.contains tool then "FOUND".data else "MISSING".data })

/-- Display text of a quote: `quote[:80] + ('...' if len(quote) > 80 else '')`. -/
def quoteDisplay (quote : Str) : Str :=
  quote.take 80 ++ (if quote.length > 80 then "...".data else [])

/-- Strategy 1 of `verify_quotes`: exact substring. -/
def quoteStrat1 (q_lower user_text : Str) : Bool := isSubOf q_lower user_text

/-- Strategy 2 of `verify_quotes` as implemented: the stripped first forty
characters, required to be longer than ten characters. -/
def quoteStrat2 (q_lower user_text : Str) : Bool :=
  let pfx := trimBoth (q_lower.take 40)
  decide (10 < pfx.length) && isSubOf pfx user_text

/-- Strategy 3 of `verify_quotes`: at least sixty per cent of the words
longer than four characters occur in the turn text.  The Python test
`hits >= max(1, len(words) * 0.6)` on an integer `hits` is equivalent to
`5 * hits >= max(5, 3 * len(words))`. -/
def quoteStrat3 (q_lower user_text : Str) : Bool :=
  let words := (pySplitWS q_lower).filter (fun w => decide (4 < w.length))
  if words.isEmpty then false
  else
    let hits := (words.filter (fun w => isSubOf w user_text)).length
    decide (max 5 (3 * words.length) ≤ 5 * hits)

/-- The status `verify_quotes` assigns to one quote. -/
def quoteStatus (quote user_text : Str) : Str :=
  let q_lower := pyLower quote
  if quoteStrat1 q_lower user_text then "FOUND".data
  else if quoteStrat2 q_lower user_text then "FOUND".data
  else if quoteStrat3 q_lower user_text then "FOUND".data
  else "MISSING".data

/-- `verify_quotes`: quoted user messages against user-turn content. -/
def verify_quotes (quotes : List Str) (turns : List Turn) : List VResult :=
  let user_text := userTurnText turns
  quotes.map (fun q => { claim := quoteDisplay q, status := quoteStatus q user_text })

/-- Strategy 2 as the specification words it: the quote's first forty
characters occur as a substring (no stripping, no minimum length). -/
def quoteStrat2Spec (q_lower user_text : Str) : Bool :=
  isSubOf (q_lower.take 40) user_text

/-- The quote status under the specification's reading of strategy 2. -/
def quoteStatusSpec (quote user_text : Str) : Str :=
  let q_lower := pyLower quote
  if quoteStrat1 q_lower user_text then "FOUND".data
  else if quoteStrat2Spec q_lower user_text then "FOUND".data
  else if quoteStrat3 q_lower user_text then "FOUND".data
  else "MISSING".data

/-- The status string `f'MISMATCH (archive: {actual} turns)'`. -/
def turnMismatchStatus (actual : Nat) : Str :=
  "MISMATCH (archive: ".data ++ (Nat.repr actual).data ++ " turns)".data

/-- `verify_turn_counts`: exact equality against the archive turn count. -/
def verify_turn_counts (claimed_counts : List Nat) (meta : ArchiveMeta) : List VResult :=
  claimed_counts.map (fun count =>
    { claim := (Nat.repr count).data ++ " turns".data,
      status := if count = meta.turns then "FOUND".data else turnMismatchStatus meta.turns })

/-! ## Deep search (`context_auditor.py` lines 578-594 and 1048-1058) -/

/-- Strip trailing slashes, Python `rstrip('/')`. -/
def rstripSlash (s : Str) : Str := (s.reverse.dropWhile (fun c => c = '/')).reverse

/-- Last path component, Python `rsplit('/', 1)[-1]`. -/
def afterLastSlash (s : Str) : Str := (s.reverse.takeWhile (fun c => c ≠ '/')).reverse

/-- The per-claim test of `deep_search_missing`. -/
def deepSearchOne (claim all_text : Str) : Bool :=
  let key := rstripSlash ((pyLower claim).map (fun c => if c = '\\' then '/' else c))
  if key.contains '/' || key.contains ':' then
    let fname := afterLastSlash (rstripSlash key)
    if decide (3 < fname.length) then isSubOf fname all_text else false
  else
    isSubOf key all_text

/-- `deep_search_missing`: the claim-to-found dictionary. -/
def deep_search_missing (missing_claims : List Str) (turns : List Turn) :
    List (Str × Bool) :=
  let all_text := allTurnText turns
  missing_claims.map (fun claim => (claim, deepSearchOne claim all_text))

/-- `found_deep.get(claim, False)`. -/
def foundDeepLookup (m : List (Str × Bool)) (claim : Str) : Bool :=
  match m.find? (fun p => p.1 == claim) with
  | some p => p.2
  | none => false

/-- The deep-search pass of `run_audit` on one category's results. -/
def deepPassCategory (results : List VResult) (turns : List Turn) : List VResult :=
  let missing := (results.filter (fun r => r.status == "MISSING".data)).map VResult.claim
  if missing.isEmpty then results
  else
    let found_deep := deep_search_missing missing turns
    results.map (fun r =>
      if r.status == "MISSING".data && foundDeepLookup found_deep r.claim then
        { r with status := "FOUND (deep)".data }
      else r)

/-- The deep-search pass of `run_audit` over the whole results map. -/
def deepPassAll (all_results : List (Str × List VResult)) (turns : List Turn) :
    List (Str × List VResult) :=
  all_results.map (fun p => (p.1, deepPassCategory p.2 turns))

/-! ## Structured results (`build_structured_results`, lines 671-772) -/

/-- Per-category statistics. -/
structure CategoryStats where
  total : Nat
  found : Nat
  missing : Nat
  mismatched : Nat
  rate : Rat
  severity : Str
deriving DecidableEq

/-- `status.startswith('FOUND')`. -/
def statusIsFound (s : Str) : Bool := "FOUND".data.isPrefixOf s

/-- `status == 'MISSING'`. -/
def statusIsMissing (s : Str) : Bool := s == "MISSING".data

/-- Results counted into the found bucket by the tally loop. -/
def countFound (results : List VResult) : Nat :=
  (results.filter (fun r => statusIsFound r.status)).length

/-- Results counted into the missing bucket. -/
def countMissing (results : List VResult) : Nat :=
  (results.filter (fun r => !statusIsFound r.status && statusIsMissing r.status)).length

/-- Results counted into the mismatched bucket. -/
def countMismatched (results : List VResult) : Nat :=
  (results.filter (fun r => !statusIsFound r.status && !statusIsMissing r.status)).length

/-- The per-category statistics record built by `build_structured_results`:
an empty result list yields the vacuous record with rate `1.0`; otherwise
the three buckets are tallied and `rate = found/total` when `total > 0`. -/
def buildCategoryStats (category : Str) (results : List VResult) : CategoryStats :=
  if results.isEmpty then
    { total := 0, found := 0, missing := 0, mismatched := 0, rate := 1,
      severity := CATEGORY_SEVERITY category }
  else
    let f := countFound results
    let m := countMissing results
    let mm := countMismatched results
    { total := f + m + mm, found := f, missing := m, mismatched := mm,
      rate := if 0 < f + m + mm then (f : Rat) / ((f + m + mm : Nat) : Rat) else 1,
      severity := CATEGORY_SEVERITY category }

/-- Normalised claim status, `'FOUND' if status.startswith('FOUND') else
status.split(' ')[0]`. -/
def jsonStatus (s : Str) : Str :=
  if statusIsFound s then "FOUND".data else s.takeWhile (fun c => c ≠ ' ')

/-- Claim location: `deep`/`header` for found claims, `none` otherwise. -/
def claimLocation (s : Str) : Str :=
  if statusIsFound s then
    (if isSubOf "deep".data s then "deep".data else "header".data)
  else "none".data

/-- Claim-id category letter, `''.join(w[0].lower() for w in category.split('/')[:1])`. -/
def categoryIdPfx (category : Str) : Str :=
  match (pySplitOnChar '/' category).headD [] with
  | [] => []
  | c :: _ => [c.toLower]

/-- One entry of the structured `claims` array. -/
structure ClaimRecord where
  id : Str
  category : Str
  claim : Str
  status : Str
  severity : Str
  location : Str
deriving DecidableEq

/-- The claim record for the `idx`-th result of a category (0-based). -/
def mkClaimRecord (category : Str) (idx : Nat) (r : VResult) : ClaimRecord :=
  { id := categoryIdPfx category ++ '-' :: (Nat.repr (idx + 1)).data,
    category := category,
    claim := r.claim,
    status := jsonStatus r.status,
    severity := CATEGORY_SEVERITY category,
    location := claimLocation r.status }

/-- The structured `claims` array over all categories. -/
def claimsList (all_results : List (Str × List VResult)) : List ClaimRecord :=
  (all_results.map (fun p => p.2.enum.map (fun q => mkClaimRecord p.1 q.1 q.2))).flatten

/-- The global `(total_found, total_missing, total_mismatch)` tally that the
source accumulates while looping over all categories and results. -/
def tallyCounts (all_results : List (Str × List VResult)) : Nat × Nat × Nat :=
  all_results.foldl
    (fun acc p =>
      (acc.1 + countFound p.2, acc.2.1 + countMissing p.2, acc.2.2 + countMismatched p.2))
    (0, 0, 0)

/-- The `(weighted_found, weighted_total)` accumulation over categories. -/
def severityWeights (categories : List (Str × CategoryStats)) : Nat × Nat :=
  categories.foldl
    (fun acc p =>
      (acc.1 + p.2.found * SEVERITY_WEIGHT p.2.severity,
       acc.2 + p.2.total * SEVERITY_WEIGHT p.2.severity))
    (0, 0)

/-- The structured run summary. -/
structure RunSummary where
  total : Nat
  found : Nat
  missing : Nat
  mismatched : Nat
  rate : Rat
  severity_weighted_rate : Rat
deriving DecidableEq

/-- The structured result object (metadata fields omitted). -/
structure StructuredRun where
  summary : RunSummary
  categories : List (Str × CategoryStats)
  claims : List ClaimRecord
deriving DecidableEq

/-- `build_structured_results`. -/
def build_structured_results (all_results : List (Str × List VResult)) : StructuredRun :=
  let categories := all_results.map (fun p => (p.1, buildCategoryStats p.1 p.2))
  let tc := tallyCounts all_results
  let total := tc.1 + tc.2.1 + tc.2.2
  let wts := severityWeights categories
  { summary :=
      { total := total, found := tc.1, missing := tc.2.1, mismatched := tc.2.2,
        rate := if 0 < total then (tc.1 : Rat) / ((total : Nat) : Rat) else 1,
        severity_weighted_rate :=
          if 0 < wts.2 then (wts.1 : Rat) / ((wts.2 : Nat) : Rat) else 1 },
    categories := categories,
    claims := claimsList all_results }

/-! ## Regression detection (`context_auditor.py` lines 817-836 and the
regression block of `context_autoarchive.py` lines 383-402) -/

/-- The categories map of a stored audit run. -/
structure RunCategories where
  categories : List (Str × CategoryStats)
deriving DecidableEq

/-- One flagged regression.  The Python renders each as the string
`"[{severity}] {cat}: {prev}% -> {curr}%"`; the record keeps the pieces. -/
structure RegressionEntry where
  severity : Str
  category : Str
  prev_rate : Rat
  curr_rate : Rat
deriving DecidableEq

/-- `prev_cats.get(cat, {}).get('rate', 1.0)`. -/
def prevRateFor (prev_cats : List (Str × CategoryStats)) (cat : Str) : Rat :=
  match prev_cats.find? (fun p => p.1 == cat) with
  | some p => p.2.rate
  | none => 1

/-- `detect_regressions`: flags every current category whose rate is
strictly below the previous run's rate; a falsy previous run yields `[]`. -/
def detect_regressions (current : RunCategories) (previous : Option RunCategories) :
    List RegressionEntry :=
  match previous with
  | none => []
  | some prev =>
    current.categories.filterMap (fun p =>
      if p.2.rate < prevRateFor prev.categories p.1 then
        some { severity := p.2.severity, category := p.1,
               prev_rate := prevRateFor prev.categories p.1, curr_rate := p.2.rate }
      else none)

/-- Python `round` (banker's rounding, half to even) on a rational: with
`f = ⌊q⌋` the fractional part is `(q.num - f * q.den) / q.den`, so it is
compared against one half by comparing `2 * (q.num - f * q.den)` with
`q.den` over the integers. -/
def pyRound (q : Rat) : Int :=
  let f : Int := q.floor
  let rnum : Int := q.num - f * q.den
  if 2 * rnum < (q.den : Int) then f
  else if (q.den : Int) < 2 * rnum then f + 1
  else if f % 2 = 0 then f else f + 1

/-- `q * 100`, written on the numerator so that it computes. -/
def timesHundred (q : Rat) : Rat := mkRat (q.num * 100) q.den

/-- The autoarchive percent conversion,
`round(r * 100) if isinstance(r, float) and r <= 1 else round(r)`. -/
def toPercent (r : Rat) : Int :=
  if r ≤ 1 then pyRound (timesHundred r) else pyRound r

/-- One regression entry of the autoarchive bundled report. -/
structure AutoRegression where
  category : Str
  previous : Int
  current : Int
deriving DecidableEq

/-- The regression block of `context_autoarchive.py`: for categories present
in both runs, flag percentage drops of more than five points. -/
def autoarchive_regressions (prev curr : RunCategories) : List AutoRegression :=
  curr.categories.filterMap (fun p =>
    match prev.categories.find? (fun q => q.1 == p.1) with
    | none => none
    | some q =>
      let prev_r := toPercent q.2.rate
      let curr_r := toPercent p.2.rate
      if curr_r < prev_r - 5 then
        some { category := p.1, previous := prev_r, current := curr_r }
      else none)

/-! ## Per-claim rerun diff (`context_rerunner.py` lines 262-312) -/

/-- The `(category, claim text)` matching key. -/
def claimKey (c : ClaimRecord) : Str × Str := (c.category, c.claim)

/-- An entry of the `upgraded`/`downgraded` lists. -/
structure ClaimDelta where
  claim : Str
  category : Str
  original : Str
  rerun : Str
deriving DecidableEq

/-- An entry of the `new_claims`/`removed_claims` lists. -/
structure ClaimStatusRec where
  claim : Str
  category : Str
  status : Str
deriving DecidableEq

/-- The result record of `compare_claims`. -/
structure CompareResult where
  unchanged : Nat
  upgraded : List ClaimDelta
  downgraded : List ClaimDelta
  new_claims : List ClaimStatusRec
  removed_claims : List ClaimStatusRec
  note : Option Str
deriving DecidableEq

/-- Dictionary built by comprehension: later entries with the same key
overwrite earlier ones, so lookup returns the last occurrence. -/
def dictLast (l : List ClaimRecord) (k : Str × Str) : Option ClaimRecord :=
  (l.filter (fun c => claimKey c == k)).getLast?

/-- Python tuple order on keys. -/
def pairLe (a b : Str × Str) : Bool :=
  if a.1 = b.1 then strLeB a.2 b.2 else strLeB a.1 b.1

/-- `sorted(set(orig_map.keys()) + rerun_map.keys())`. -/
def allClaimKeys (original_claims rerun_claims : List ClaimRecord) : List (Str × Str) :=
  insort pairLe (dedupKeep ((original_claims ++ rerun_claims).map claimKey))

/-- `compare_claims`: matches by `(category, claim)` and classifies each
matched pair; the `if/elif` chain sends every other status change — not
only `MISSING|MISMATCH -> FOUND` — to the `upgraded` list. -/
def compare_claims (original_claims rerun_claims : List ClaimRecord) : CompareResult :=
  if original_claims.isEmpty && rerun_claims.isEmpty then
    { unchanged := 0, upgraded := [], downgraded := [], new_claims := [],
      removed_claims := [], note := some "both empty".data }
  else if original_claims.isEmpty then
    { unchanged := 0, upgraded := [], downgraded := [],
      new_claims := rerun_claims.map (fun c =>
        { claim := c.claim, category := c.category, status := c.status }),
      removed_claims := [], note := some "original had no per-claim data".data }
  else
    let omap := dictLast original_claims
    let rmap := dictLast rerun_claims
    let all_keys := allClaimKeys original_claims rerun_claims
    { unchanged := (all_keys.filter (fun k =>
        match omap k, rmap k with
        | some o, some r => o.status == r.status
        | _, _ => false)).length,
      upgraded := all_keys.filterMap (fun k =>
        match omap k, rmap k with
        | some o, some r =>
          if o.status == r.status then none
          else if (o.status == "MISSING".data || o.status == "MISMATCH".data)
                  && r.status == "FOUND".data then
            some { claim := k.2, category := k.1, original := o.status, rerun := r.status }
          else if o.status == "FOUND".data
                  && (r.status == "MISSING".data || r.status == "MISMATCH".data) then
            none
          else
            some { claim := k.2, category := k.1, original := o.status, rerun := r.status }
        | _, _ => none),
      downgraded := all_keys.filterMap (fun k =>
        match omap k, rmap k with
        | some o, some r =>
          if o.status == r.status then none
          else if (o.status == "MISSING".data || o.status == "MISMATCH".data)
                  && r.status == "FOUND".data then none
          else if o.status == "FOUND".data
                  && (r.status == "MISSING".data || r.status == "MISMATCH".data) then
            some { claim := k.2, category := k.1, original := o.status, rerun := r.status }
          else none
        | _, _ => none),
      new_claims := all_keys.filterMap (fun k =>
        match omap k, rmap k with
        | none, some r => some { claim := k.2, category := k.1, status := r.status }
        | _, _ => none),
      removed_claims := all_keys.filterMap (fun k =>
        match omap k, rmap k with
        | some o, none => some { claim := k.2, category := k.1, status := o.status }
        | _, _ => none),
      note := none }

/-! ## Claim extraction (`context_auditor.py` lines 127-357) -/

/-- First occurrence split: text before the pattern and text after it. -/
def splitAtSub (pat : Str) : Str → Option (Str × Str)
  | [] => if pat.isEmpty then some ([], []) else none
  | c :: t =>
    if pat.isPrefixOf (c :: t) then some ([], (c :: t).drop pat.length)
    else
      match splitAtSub pat t with
      | none => none
      | some (b, a) => some (c :: b, a)

/-- Worker for `strip_code_blocks`. -/
def stripCodeBlocksGo : Nat → Str → Str
  | 0, s => s
  | fuel + 1, s =>
    match splitAtSub "```".data s with
    | none => s
    | some (bef, aft) =>
      match splitAtSub "```".data aft with
      | none => s
      | some (_, rest) => bef ++ stripCodeBlocksGo fuel rest

/-- `strip_code_blocks`: remove every fenced code block (the non-greedy
regex deletes from each opening fence to the nearest closing fence). -/
def strip_code_blocks (s : Str) : Str := stripCodeBlocksGo (s.length + 1) s

/-- Case-insensitive literal prefix test (`pat` is given in lower case). -/
def ciPrefixOf (pat : Str) (s : Str) : Bool := pat == pyLower (s.take pat.length)

/-! ### `extract_file_claims` -/

/-- A character of the Windows-path tail class, `[\w./\\-]`. -/
def isP1Char (c : Char) : Bool :=
  isWordChar c || c = '.' || c = '/' || c = '\\' || c = '-'

/-- Scanner for the Windows-path pattern, `[A-Za-z]:[/\\][\w./\\-]+`. -/
def scanWinPaths : Nat → Str → List Str
  | 0, _ => []
  | _, [] => []
  | fuel + 1, c :: t =>
    if c.isAlpha then
      match t with
      | ':' :: d :: t' =>
        if d = '/' || d = '\\' then
          let run := t'.takeWhile isP1Char
          if run.isEmpty then scanWinPaths fuel t
          else (c :: ':' :: d :: run) :: scanWinPaths fuel (t'.drop run.length)
        else scanWinPaths fuel t
      | _ => scanWinPaths fuel t
    else scanWinPaths fuel t

/-- A character of a Unix path segment, `[\w.-]`. -/
def isSegChar (c : Char) : Bool := isWordChar c || c = '.' || c = '-'

/-- The greedy `([\w.-]+/)*[\w.-]+` chunk sequence with its remainder; a
slash followed by an empty chunk is left unconsumed (regex backtracking). -/
def unixSeq : Nat → Str → List Str × Str
  | 0, s => ([], s)
  | fuel + 1, s =>
    let chunk := s.takeWhile isSegChar
    if chunk.isEmpty then ([], s)
    else
      match s.drop chunk.length with
      | '/' :: rest' =>
        let pr := unixSeq fuel rest'
        if pr.1.isEmpty then ([chunk], s.drop chunk.length)
        else (chunk :: pr.1, pr.2)
      | rest => ([chunk], rest)

/-- A match of `(?:[\w.-]+/)+[\w.-]+` starting right after a slash: needs
at least two chunks. -/
def unixMatchFrom (s : Str) : Option (Str × Str) :=
  let pr := unixSeq (s.length + 1) s
  if 2 ≤ pr.1.length then some (joinWithChar '/' pr.1, pr.2) else none

/-- Scanner for the Unix-path pattern `(?<!\w)/(?:[\w.-]+/)+[\w.-]+`,
tracking whether the previous character was a word character. -/
def scanUnixPaths (prevWord : Bool) : Nat → Str → List Str
  | 0, _ => []
  | _, [] => []
  | fuel + 1, c :: t =>
    if c = '/' && !prevWord then
      match unixMatchFrom t with
      | some (m, rest) =>
        ('/' :: m) :: scanUnixPaths (isWordChar (m.getLastD '/')) fuel rest
      | none => scanUnixPaths false fuel t
    else scanUnixPaths (isWordChar c) fuel t

/-- `match.rstrip('/\\).,:;')`. -/
def cleanPathMatch (m : Str) : Str :=
  (m.reverse.dropWhile (fun c =>
    c = '/' || c = '\\' || c = ')' || c = '.' || c = ',' || c = ':' || c = ';')).reverse

/-- `extract_file_claims`: path-like strings, cleaned, longer than five
characters, as a sorted set. -/
def extract_file_claims (text : Str) : List Str :=
  let m1 := scanWinPaths (text.length + 1) text
  let m2 := scanUnixPaths false (text.length + 1) text
  let cleaned := (m1 ++ m2).map cleanPathMatch
  insort strLeB (dedupKeep (cleaned.filter (fun p => decide (5 < p.length))))

/-! ### `extract_tool_claims` -/

/-- Occurrence of `w` with `\b` boundaries on both sides. -/
def containsWordGo (w : Str) (prevWord : Bool) : Nat → Str → Bool
  | 0, _ => false
  | _, [] => false
  | fuel + 1, c :: t =>
    (!prevWord && w.isPrefixOf (c :: t) &&
      (match (c :: t).drop w.length with
       | [] => true
       | d :: _ => !isWordChar d)) ||
    containsWordGo w (isWordChar c) fuel t

/-- `re.search(r'\b' + tool + r'\b', text)` as a Boolean. -/
def containsWord (w : Str) (text : Str) : Bool :=
  containsWordGo w false (text.length + 1) text

/-- The known tool names, listed in sorted order so that filtering them is
the `sorted(found)` of the source's set iteration. -/
def knownToolsSorted : List Str :=
  ["AskUserQuestion".data, "Bash".data, "Edit".data, "EnterPlanMode".data,
   "ExitPlanMode".data, "Glob".data, "Grep".data, "NotebookEdit".data,
   "Read".data, "Skill".data, "Task".data, "TodoWrite".data,
   "WebFetch".data, "WebSearch".data, "Write".data]

/-- `extract_tool_claims`. -/
def extract_tool_claims (text : Str) : List Str :=
  knownToolsSorted.filter (fun tool => containsWord tool text)

/-! ### `extract_turn_count_claims` -/

/-- Decimal digits to a number, Python `int`. -/
def digitsToNat (ds : Str) : Nat :=
  ds.foldl (fun acc c => acc * 10 + (c.toNat - '0'.toNat)) 0

/-- A match of `(\d+)[\s-]*turns?\b` (case-insensitive) at this position:
returns the count and the remainder after the match. -/
def turnCountAt (s : Str) : Option (Nat × Str) :=
  let ds := s.takeWhile Char.isDigit
  if ds.isEmpty then none
  else
    let rest := s.drop ds.length
    let sep := rest.takeWhile (fun c => isSpaceChar c || c = '-')
    let rest2 := rest.drop sep.length
    if ciPrefixOf "turn".data rest2 then
      match rest2.drop 4 with
      | [] => some (digitsToNat ds, [])
      | c :: t =>
        if c = 's' || c = 'S' then
          match t with
          | [] => some (digitsToNat ds, [])
          | d :: _ => if isWordChar d then none else some (digitsToNat ds, t)
        else if isWordChar c then none
        else some (digitsToNat ds, c :: t)
    else none

/-- Scanner for turn-count claims. -/
def scanTurnCounts : Nat → Str → List Nat
  | 0, _ => []
  | _, [] => []
  | fuel + 1, c :: t =>
    match turnCountAt (c :: t) with
    | some (n, rest) => n :: scanTurnCounts fuel rest
    | none => scanTurnCounts fuel t

/-- `extract_turn_count_claims` (order of appearance, duplicates kept). -/
def extract_turn_count_claims (text : Str) : List Nat :=
  scanTurnCounts (text.length + 1) text

/-! ### `extract_function_claims` -/

/-- After a matched keyword: `\s+(\w+)` and, when `needParen` is set,
`\s*\(`; returns the captured name and the remainder. -/
def funcNameAfterKeyword (rest : Str) (needParen : Bool) : Option (Str × Str) :=
  let ws := rest.takeWhile isSpaceChar
  if ws.isEmpty then none
  else
    let r1 := rest.drop ws.length
    let name := r1.takeWhile isWordChar
    if name.isEmpty then none
    else
      let r2 := r1.drop name.length
      if needParen then
        let ws2 := r2.takeWhile isSpaceChar
        match r2.drop ws2.length with
        | '(' :: r3 => some (name, r3)
        | _ => none
      else some (name, r2)

/-- Scanner for `\bdef\s+(\w+)\s*\(` and `\bclass\s+(\w+)`. -/
def scanKeyword (kw : Str) (needParen : Bool) (prevWord : Bool) : Nat → Str → List Str
  | 0, _ => []
  | _, [] => []
  | fuel + 1, c :: t =>
    if !prevWord && kw.isPrefixOf (c :: t) then
      match funcNameAfterKeyword ((c :: t).drop kw.length) needParen with
      | some (name, rest) => name :: scanKeyword kw needParen (!needParen) fuel rest
      | none => scanKeyword kw needParen (isWordChar c) fuel t
    else scanKeyword kw needParen (isWordChar c) fuel t

/-- `extract_function_claims`: function and class names, as a sorted set;
the class names `Task`, `Path` and `Counter` are skipped. -/
def extract_function_claims (text : Str) : List Str :=
  let defNames := scanKeyword "def".data true false (text.length + 1) text
  let classNames := (scanKeyword "class".data false false (text.length + 1) text).filter
    (fun n => !(n == "Task".data || n == "Path".data || n == "Counter".data))
  insort strLeB (dedupKeep (defNames ++ classNames))

/-! ### `extract_user_quotes` -/

/-- Leftmost match of `All User Messages[:\s]*\n` (case-insensitive):
returns the text after the match end, which sits after the last newline of
the colon/whitespace run following the literal. -/
def findUserMsgSection : Str → Option Str
  | [] => none
  | c :: t =>
    let pat := "all user messages".data
    if ciPrefixOf pat (c :: t) then
      let rest := (c :: t).drop pat.length
      let run := rest.takeWhile (fun x => x = ':' || isSpaceChar x)
      if run.contains '\n' then
        some (rest.drop (run.length - (run.reverse.takeWhile (fun x => x ≠ '\n')).length))
      else findUserMsgSection t
    else findUserMsgSection t

/-- Does `^\s*\d+\.\s+[A-Z]` match at this position? -/
def sectionPatAt (s : Str) : Bool :=
  let afterWs := s.dropWhile isSpaceChar
  let digits := afterWs.takeWhile Char.isDigit
  if digits.isEmpty then false
  else
    match afterWs.drop digits.length with
    | '.' :: rest =>
      let ws2 := rest.takeWhile isSpaceChar
      if ws2.isEmpty then false
      else
        match rest.drop ws2.length with
        | c :: _ => c.isUpper
        | [] => false
    | _ => false

/-- Start index of the leftmost multiline match of `^\s*\d+\.\s+[A-Z]`. -/
def nextSectionStart (atLineStart : Bool) (idx : Nat) : Str → Option Nat
  | [] => none
  | c :: t =>
    if atLineStart && sectionPatAt (c :: t) then some idx
    else nextSectionStart (c = '\n') (idx + 1) t

/-- The region quotes are extracted from: the `All User Messages` section
when present (up to the next numbered section header), else the whole text. -/
def userQuotesTarget (text : Str) : Str :=
  match findUserMsgSection text with
  | none => text
  | some tail =>
    match nextSectionStart true 0 tail with
    | none => tail
    | some p => tail.take p

/-- Scanner for a delimited capture `open([^close]{min,})close`, with the
regex engine's advance-by-one behaviour on failed attempts. -/
def scanDelimited (openC closeC : Char) (minLen : Nat) : Nat → Str → List Str
  | 0, _ => []
  | _, [] => []
  | fuel + 1, c :: t =>
    if c = openC then
      let body := t.takeWhile (fun x => x ≠ closeC)
      let rest := t.drop body.length
      if rest.isEmpty then []
      else if minLen ≤ body.length then
        body :: scanDelimited openC closeC minLen fuel (rest.drop 1)
      else scanDelimited openC closeC minLen fuel t
    else scanDelimited openC closeC minLen fuel t

/-- `re.match(r'^[\w./\\:]+$', q)`: the quote looks like a path or code. -/
def isCodeLikeQuote (q : Str) : Bool :=
  !q.isEmpty && q.all (fun c => isWordChar c || c = '.' || c = '/' || c = '\\' || c = ':')

/-- The straight-quote skip rules of `extract_user_quotes`. -/
def straightQuoteKeep (q : Str) : Bool :=
  !(match q with
    | c :: _ => c.toNat = 123 || c = '['
    | [] => false) &&
  !(isSubOf ['\\', 'n'] q) &&
  !(isCodeLikeQuote q)

/-- Deduplication by the lowered, stripped first forty characters, keeping
the first occurrence. -/
def dedupQuotesGo (seen : List Str) : List Str → List Str
  | [] => []
  | q :: t =>
    let key := trimBoth (pyLower (q.take 40))
    if seen.contains key then dedupQuotesGo seen t
    else q :: dedupQuotesGo (key :: seen) t

/-- `extract_user_quotes`: smart-quoted then straight-quoted spans of at
least eight characters from the target region, code blocks stripped,
code-like straight quotes skipped, deduplicated by prefix. -/
def extract_user_quotes (text : Str) : List Str :=
  let target := strip_code_blocks (userQuotesTarget text)
  let smart := scanDelimited '“' '”' 8 (target.length + 1) target
  let straight := (scanDelimited '"' '"' 8 (target.length + 1) target).filter straightQuoteKeep
  dedupQuotesGo [] (smart ++ straight)

/-! ### `extract_topic_claims` -/

/-- The section headers skipped by topic extraction. -/
def sectionHeaders : List Str :=
  ["primary request and intent".data, "key technical concepts".data,
   "files and code sections".data, "errors and fixes".data,
   "problem solving".data, "all user messages".data, "pending tasks".data,
   "current work".data, "optional next step".data, "analysis".data,
   "summary".data]

/-- The status/label words skipped for bold terms. -/
def skipLabels : List Str :=
  ["NOTE".data, "CRITICAL".data, "IMPORTANT".data, "SOLVED".data,
   "NOT FIXED".data, "ONGOING".data, "MODIFIED".data, "CREATED".data,
   "READ".data, "GENERATED".data, "BUG".data, "COMPLETE".data,
   "WHAT".data, "WHY".data, "HOW".data, "FIX".data, "ERROR".data,
   "FIXED".data, "DEFERRED".data, "IN".data, "ADD".data, "JUST".data,
   "ONLY".data, "CHANGE".data]

/-- The hardcoded acronym skip set. -/
def skipAcr : List Str :=
  ["OK".data, "ID".data, "VS".data, "IE".data, "EG".data, "IF".data,
   "OR".data, "IS".data, "IT".data, "DO".data, "AS".data, "ON".data,
   "TO".data, "AT".data, "OF".data, "NO".data, "UP".data, "SO".data,
   "BE".data, "BY".data, "AM".data, "AN".data, "PC".data, "IN".data,
   "NOT".data, "THE".data, "AND".data, "FOR".data, "ALL".data, "HAS".data,
   "WAS".data, "GET".data, "SET".data, "PUT".data, "API".data, "CLI".data,
   "URL".data, "SQL".data, "ADD".data, "BUT".data, "CAN".data, "DID".data,
   "HAD".data, "HER".data, "HIS".data, "HIM".data, "HOW".data, "ITS".data,
   "LET".data, "MAY".data, "NEW".data, "NOW".data, "OLD".data, "OUR".data,
   "OWN".data, "RAN".data, "SAY".data, "SHE".data, "TRY".data, "USE".data,
   "WAY".data, "WHO".data, "WIN".data, "YET".data, "ANY".data, "FEW".data,
   "GOT".data, "NOR".data, "RUN".data, "TWO".data,
   "JSON".data, "HTML".data, "TEXT".data, "FILE".data, "PATH".data,
   "UUID".data, "NULL".data, "TRUE".data, "ARGS".data, "HTTP".data,
   "SELF".data, "NONE".data, "JUST".data, "ONLY".data, "ALSO".data,
   "BACK".data, "BEEN".data, "BOTH".data, "CALL".data, "COME".data,
   "DONE".data, "EACH".data, "EVEN".data, "FIND".data, "FROM".data,
   "GAVE".data, "GOES".data, "GONE".data, "GOOD".data, "HAVE".data,
   "HERE".data, "INTO".data, "KEEP".data, "KNOW".data, "LAST".data,
   "LEFT".data, "LIKE".data, "LIST".data, "LOOK".data, "MADE".data,
   "MAKE".data, "MANY".data, "MORE".data, "MOST".data, "MUCH".data,
   "MUST".data, "NAME".data, "NEED".data, "NEXT".data, "ONCE".data,
   "OVER".data, "PART".data, "SAME".data, "SHOW".data, "SIDE".data,
   "SOME".data, "SUCH".data, "SURE".data, "TAKE".data, "TELL".data,
   "THAN".data, "THAT".data, "THEM".data, "THEN".data, "THEY".data,
   "THIS".data, "TOOK".data, "VERY".data, "WANT".data, "WELL".data,
   "WENT".data, "WERE".data, "WHAT".data, "WHEN".data, "WILL".data,
   "WITH".data, "WORK".data, "YOUR".data,
   "FALSE".data, "ABOUT".data, "ABOVE".data, "AFTER".data, "AGAIN".data,
   "BEING".data, "BELOW".data, "COULD".data, "EVERY".data, "FIRST".data,
   "FOUND".data, "NEVER".data, "OTHER".data, "SHALL".data, "SINCE".data,
   "STILL".data, "THEIR".data, "THERE".data, "THESE".data, "THINK".data,
   "THOSE".data, "THREE".data, "UNDER".data, "UNTIL".data, "WHERE".data,
   "WHICH".data, "WHILE".data, "WHOSE".data, "WOULD".data, "SHOULD".data,
   "THROUGH".data, "BEFORE".data, "BETWEEN".data, "BECAUSE".data,
   "DURING".data, "WITHOUT".data, "ALREADY".data, "ANOTHER".data,
   "ALWAYS".data, "APPEAR".data, "CHANGE".data, "DISCUSSED".data,
   "IDENTIFIED".data, "PREVIOUS".data, "UPDATED".data, "UNLESS".data,
   "CREATED".data, "MODIFIED".data, "GENERATED".data, "MEMORY".data,
   "README".data, "UTF".data, "STDERR".data, "STDOUT".data, "TYPE".data,
   "LOCAL".data]

/-- `_load_blacklist`: reads `semantic_map.json` next to the script and
returns its `blacklist` words upper-cased; `none` models a missing or
unparsable file.  This is the file-system read performed by topic
extraction. -/
def load_blacklist (fileContents : Option (List Str)) : List Str :=
  match fileContents with
  | none => []
  | some words => words.map pyUpper

/-- `_is_formatting_artifact`. -/
def isFormattingArtifact (t : Str) : Bool :=
  t.contains '\n' || t.contains '\r' ||
  (decide (0 < t.length) &&
    decide ((t.filter Char.isAlphanum).length * 2 < t.length)) ||
  (match t with
   | c :: _ =>
     c = ':' || c = '-' || c = '(' || c = ')' || c = '[' || c = ']' ||
     c.toNat = 123 || c.toNat = 125 || c = '|' || c = '>'
   | [] => false)

/-- Scanner for bold terms, `\*\*([^*]{3,50})\*\*`. -/
def scanBold : Nat → Str → List Str
  | 0, _ => []
  | _, [] => []
  | fuel + 1, c :: t =>
    match c, t with
    | '*', '*' :: t2 =>
      let body := t2.takeWhile (fun x => x ≠ '*')
      let rest := t2.drop body.length
      if 3 ≤ body.length && body.length ≤ 50 then
        match rest with
        | '*' :: '*' :: rest2 => body :: scanBold fuel rest2
        | _ => scanBold fuel t
      else scanBold fuel t
    | _, _ => scanBold fuel t

/-- `re.match(r'^Message\s+\d+', term)`. -/
def matchesMessageNum (t : Str) : Bool :=
  "Message".data.isPrefixOf t &&
  (let r := t.drop 7
   let ws := r.takeWhile isSpaceChar
   !ws.isEmpty && !((r.drop ws.length).takeWhile Char.isDigit).isEmpty)

/-- The bold-term filters of `extract_topic_claims`. -/
def boldTermOk (blacklist : List Str) (term : Str) : Bool :=
  !(skipLabels.contains (pyUpper term)) &&
  !(blacklist.contains (pyUpper term)) &&
  !(sectionHeaders.contains (pyLower term)) &&
  !(matchesMessageNum term) &&
  !(term.contains '/') && !(term.contains '\\') &&
  !(isFormattingArtifact term) &&
  decide (3 < term.length)

/-- A capitalised word `[A-Z][a-z]+` at this position. -/
def capWordAt : Str → Option (Str × Str)
  | [] => none
  | c :: t =>
    if c.isUpper then
      let low := t.takeWhile Char.isLower
      if low.isEmpty then none
      else some (c :: low, t.drop low.length)
    else none

/-- The greedy repetitions `(?:\s+[A-Z][a-z]+)+` with the remainder. -/
def capReps : Nat → Str → List Str × Str
  | 0, s => ([], s)
  | fuel + 1, s =>
    let ws := s.takeWhile isSpaceChar
    if ws.isEmpty then ([], s)
    else
      match capWordAt (s.drop ws.length) with
      | none => ([], s)
      | some (w, rest) =>
        let pr := capReps fuel rest
        ((ws ++ w) :: pr.1, pr.2)

/-- A match of `\b([A-Z][a-z]+(?:\s+[A-Z][a-z]+)+)\b` at this position
(the leading boundary is checked by the caller); when the trailing
boundary fails the last repetition is given back. -/
def capPhraseAt (s : Str) : Option (Str × Str) :=
  match capWordAt s with
  | none => none
  | some (w1, rest) =>
    let pr := capReps (rest.length + 1) rest
    if pr.1.isEmpty then none
    else
      let okEnd := match pr.2 with
                   | [] => true
                   | c :: _ => !isWordChar c
      if okEnd then some (w1 ++ pr.1.flatten, pr.2)
      else
        match pr.1 with
        | [_] => none
        | _ => some (w1 ++ pr.1.dropLast.flatten, pr.1.getLastD [] ++ pr.2)

/-- Scanner for capitalised multi-word phrases. -/
def scanCapPhrases (prevWord : Bool) : Nat → Str → List Str
  | 0, _ => []
  | _, [] => []
  | fuel + 1, c :: t =>
    if !prevWord then
      match capPhraseAt (c :: t) with
      | some (m, rest) => m :: scanCapPhrases true fuel rest
      | none => scanCapPhrases (isWordChar c) fuel t
    else scanCapPhrases (isWordChar c) fuel t

/-- `re.match(r'^(Message|Session|Turn|Step|Phase|Option)\s', phrase)`. -/
def matchesSkipPhraseStart (s : Str) : Bool :=
  ["Message".data, "Session".data, "Turn".data, "Step".data, "Phase".data,
   "Option".data].any (fun w =>
    w.isPrefixOf s &&
    (match s.drop w.length with
     | c :: _ => isSpaceChar c
     | [] => false))

/-- The capitalised-phrase filters of `extract_topic_claims`. -/
def capPhraseOk (blacklist : List Str) (phrase : Str) : Bool :=
  !(sectionHeaders.contains (pyLower phrase)) &&
  !(blacklist.contains (pyUpper phrase)) &&
  !(matchesSkipPhraseStart phrase) &&
  !(isFormattingArtifact phrase) &&
  decide (5 < phrase.length)

/-- Scanner for acronyms, `\b([A-Z]{2,})\b`. -/
def scanAcronyms (prevWord : Bool) : Nat → Str → List Str
  | 0, _ => []
  | _, [] => []
  | fuel + 1, c :: t =>
    if !prevWord && c.isUpper then
      let run := (c :: t).takeWhile Char.isUpper
      if 2 ≤ run.length then
        let rest := (c :: t).drop run.length
        let okEnd := match rest with
                     | [] => true
                     | d :: _ => !isWordChar d
        if okEnd then run :: scanAcronyms true fuel rest
        else scanAcronyms (isWordChar c) fuel t
      else scanAcronyms (isWordChar c) fuel t
    else scanAcronyms (isWordChar c) fuel t

/-- The acronym filter: skip the hardcoded set merged with the blacklist. -/
def topicAcronymOk (blacklist : List Str) (acr : Str) : Bool :=
  !(skipAcr.contains acr) && !(blacklist.contains acr)

/-- `extract_topic_claims`; the blacklist that the source loads from
`semantic_map.json` inside the call (via `_load_blacklist`) is passed
explicitly, already upper-cased as `load_blacklist` returns it. -/
def extract_topic_claims (text : Str) (blacklist : List Str) : List Str :=
  let cleaned := strip_code_blocks text
  let boldTerms := ((scanBold (cleaned.length + 1) cleaned).map trimBoth).filter
    (boldTermOk blacklist)
  let capPhrases := ((scanCapPhrases false (cleaned.length + 1) cleaned).map trimBoth).filter
    (capPhraseOk blacklist)
  let acrs := (scanAcronyms false (cleaned.length + 1) cleaned).filter
    (topicAcronymOk blacklist)
  insort strLeB (dedupKeep (boldTerms ++ capPhrases ++ acrs))

/-! ## Supporting lemmas -/

lemma mem_zip_map {α β : Type} (f : α → β) :
    ∀ (l : List α) (p : α × β), p ∈ l.zip (l.map f) → p.2 = f p.1 ∧ p.1 ∈ l
  | [], p, h => by simp [List.zip] at h
  | x :: t, p, h => by
    simp only [List.map_cons, List.zip_cons_cons, List.mem_cons] at h
    rcases h with h | h
    · subst h; exact ⟨rfl, List.mem_cons_self _ _⟩
    · exact ⟨(mem_zip_map f t p h).1, List.mem_cons_of_mem _ (mem_zip_map f t p h).2⟩

lemma mem_zip_self {α : Type} :
    ∀ (l : List α) (p : α × α), p ∈ l.zip l → p.2 = p.1
  | [], p, h => by simp [List.zip] at h
  | x :: t, p, h => by
    simp only [List.zip_cons_cons, List.mem_cons] at h
    rcases h with h | h
    · subst h; rfl
    · exact mem_zip_self t p h

lemma tallyCounts_go (ar : List (Str × List VResult)) :
    ∀ a b c : Nat,
      ar.foldl (fun acc p =>
        (acc.1 + countFound p.2, acc.2.1 + countMissing p.2,
         acc.2.2 + countMismatched p.2)) (a, b, c) =
      (a + (ar.map (fun p => countFound p.2)).sum,
       b + (ar.map (fun p => countMissing p.2)).sum,
       c + (ar.map (fun p => countMismatched p.2)).sum) := by
  induction ar with
  | nil => intro a b c; simp
  | cons x t ih =>
    intro a b c
    simp only [List.foldl_cons, List.map_cons, List.sum_cons]
    rw [ih]
    simp only [Prod.mk.injEq]
    omega

lemma tallyCounts_eq (ar : List (Str × List VResult)) :
    tallyCounts ar =
      ((ar.map (fun p => countFound p.2)).sum,
       (ar.map (fun p => countMissing p.2)).sum,
       (ar.map (fun p => countMismatched p.2)).sum) := by
  unfold tallyCounts
  rw [tallyCounts_go]
  simp

lemma severityWeights_go (cats : List (Str × CategoryStats)) :
    ∀ a b : Nat,
      cats.foldl (fun acc p =>
        (acc.1 + p.2.found * SEVERITY_WEIGHT p.2.severity,
         acc.2 + p.2.total * SEVERITY_WEIGHT p.2.severity)) (a, b) =
      (a + (cats.map (fun p => p.2.found * SEVERITY_WEIGHT p.2.severity)).sum,
       b + (cats.map (fun p => p.2.total * SEVERITY_WEIGHT p.2.severity)).sum) := by
  induction cats with
  | nil => intro a b; simp
  | cons x t ih =>
    intro a b
    simp only [List.foldl_cons, List.map_cons, List.sum_cons]
    rw [ih]
    simp only [Prod.mk.injEq]
    omega

lemma severityWeights_eq (cats : List (Str × CategoryStats)) :
    severityWeights cats =
      ((cats.map (fun p => p.2.found * SEVERITY_WEIGHT p.2.severity)).sum,
       (cats.map (fun p => p.2.total * SEVERITY_WEIGHT p.2.severity)).sum) := by
  unfold severityWeights
  rw [severityWeights_go]
  simp

lemma buildCategoryStats_found (c : Str) (rs : List VResult) :
    (buildCategoryStats c rs).found = countFound rs := by
  unfold buildCategoryStats
  by_cases h : rs.isEmpty
  · rw [List.isEmpty_iff] at h; subst h
    simp [countFound]
  · simp [h]

lemma buildCategoryStats_missing (c : Str) (rs : List VResult) :
    (buildCategoryStats c rs).missing = countMissing rs := by
  unfold buildCategoryStats
  by_cases h : rs.isEmpty
  · rw [List.isEmpty_iff] at h; subst h
    simp [countMissing]
  · simp [h]

lemma buildCategoryStats_mismatched (c : Str) (rs : List VResult) :
    (buildCategoryStats c rs).mismatched = countMismatched rs := by
  unfold buildCategoryStats
  by_cases h : rs.isEmpty
  · rw [List.isEmpty_iff] at h; subst h
    simp [countMismatched]
  · simp [h]

lemma buildCategoryStats_total (c : Str) (rs : List VResult) :
    (buildCategoryStats c rs).total =
      (buildCategoryStats c rs).found + (buildCategoryStats c rs).missing +
        (buildCategoryStats c rs).mismatched := by
  unfold buildCategoryStats
  by_cases h : rs.isEmpty
  · simp [h]
  · simp [h]

lemma buildCategoryStats_found_le_total (c : Str) (rs : List VResult) :
    (buildCategoryStats c rs).found ≤ (buildCategoryStats c rs).total := by
  rw [buildCategoryStats_total]
  omega

lemma buildCategoryStats_rate_eq (c : Str) (rs : List VResult)
    (h : 0 < (buildCategoryStats c rs).total) :
    (buildCategoryStats c rs).rate =
      ((buildCategoryStats c rs).found : Rat) / ((buildCategoryStats c rs).total : Rat) := by
  cases hrs : rs.isEmpty
  · simp only [buildCategoryStats, hrs, Bool.false_eq_true, if_false] at h ⊢
    rw [if_pos h]
  · simp [buildCategoryStats, hrs] at h

lemma buildCategoryStats_rate_one (c : Str) (rs : List VResult)
    (h : (buildCategoryStats c rs).rate = 1) :
    (buildCategoryStats c rs).found = (buildCategoryStats c rs).total := by
  by_cases ht : 0 < (buildCategoryStats c rs).total
  · have hr := buildCategoryStats_rate_eq c rs ht
    rw [h] at hr
    have hne : ((buildCategoryStats c rs).total : Rat) ≠ 0 := by
      exact_mod_cast Nat.pos_iff_ne_zero.mp ht
    have := (div_eq_one_iff_eq hne).mp hr.symm
    exact_mod_cast this
  · have := buildCategoryStats_found_le_total c rs
    omega

lemma sum_map_add3 {α : Type} (f g h : α → Nat) (l : List α) :
    (l.map (fun x => f x + g x + h x)).sum =
      (l.map f).sum + (l.map g).sum + (l.map h).sum := by
  induction l with
  | nil => simp
  | cons x t ih =>
    simp only [List.map_cons, List.sum_cons, ih]
    omega

lemma build_wf_le_wt (ar : List (Str × List VResult)) :
    (severityWeights (build_structured_results ar).categories).1 ≤
      (severityWeights (build_structured_results ar).categories).2 := by
  rw [severityWeights_eq]
  apply List.sum_le_sum
  intro p hp
  rcases List.mem_map.mp hp with ⟨q, _, rfl⟩
  exact Nat.mul_le_mul_right _ (buildCategoryStats_found_le_total q.1 q.2)

/-! ## Claim theorems -/

/-- Claim C1: `build_structured_results` gives every category with an empty
result list the stats `{total 0, found 0, missing 0, mismatched 0,
rate 1.0}`; gives every category with `total > 0` the rate `found/total`;
and a summary claiming no tools (`verify_tools` on an empty claim list)
yields the vacuous Tools Used stats whatever the archive metadata lists. -/
theorem c1_vacuous_category_and_rate (all_results : List (Str × List VResult)) :
    (build_structured_results all_results).categories =
      all_results.map (fun p => (p.1, buildCategoryStats p.1 p.2)) ∧
    (∀ c : Str, buildCategoryStats c [] =
      { total := 0, found := 0, missing := 0, mismatched := 0, rate := 1,
        severity := CATEGORY_SEVERITY c }) ∧
    (∀ (c : Str) (rs : List VResult), 0 < (buildCategoryStats c rs).total →
      (buildCategoryStats c rs).rate =
        ((buildCategoryStats c rs).found : Rat) / ((buildCategoryStats c rs).total : Rat)) ∧
    (∀ meta : ArchiveMeta, verify_tools [] meta = [] ∧
      buildCategoryStats "Tools Used".data (verify_tools [] meta) =
        { total := 0, found := 0, missing := 0, mismatched := 0, rate := 1,
          severity := "MAJOR".data }) := by
  refine ⟨rfl, fun c => rfl, buildCategoryStats_rate_eq, fun meta => ⟨rfl, ?_⟩⟩
  show buildCategoryStats "Tools Used".data [] = _
  decide

/-- Witness for C1: a two-claim category gets rate `found/total`, and the
Tools Used category of a summary with no tool mentions is vacuous against
an archive listing five tools. -/
theorem c1_vacuous_category_and_rate_witness :
    (buildCategoryStats "User Quotes".data
        [⟨"q".data, "FOUND".data⟩, ⟨"r".data, "MISSING".data⟩]).rate =
      ((buildCategoryStats "User Quotes".data
          [⟨"q".data, "FOUND".data⟩, ⟨"r".data, "MISSING".data⟩]).found : Rat) /
        ((buildCategoryStats "User Quotes".data
          [⟨"q".data, "FOUND".data⟩, ⟨"r".data, "MISSING".data⟩]).total : Rat) ∧
    buildCategoryStats "Tools Used".data
        (verify_tools [] ⟨"Read, Bash, Edit, Glob, Grep".data, 5⟩) =
      { total := 0, found := 0, missing := 0, mismatched := 0, rate := 1,
        severity := "MAJOR".data } :=
  ⟨(c1_vacuous_category_and_rate []).2.2.1 _ _ (by decide),
   ((c1_vacuous_category_and_rate []).2.2.2 ⟨"Read, Bash, Edit, Glob, Grep".data, 5⟩).2⟩

/-- Claim C9: in every structured run each category satisfies
`total = found + missing + mismatched`, the summary counters are the sums
of the per-category counters, and `summary.rate = found/total` whenever
`total > 0`. -/
theorem c9_count_consistency (ar : List (Str × List VResult)) :
    (∀ p ∈ (build_structured_results ar).categories,
      p.2.total = p.2.found + p.2.missing + p.2.mismatched) ∧
    (build_structured_results ar).summary.found =
      ((build_structured_results ar).categories.map (fun p => p.2.found)).sum ∧
    (build_structured_results ar).summary.missing =
      ((build_structured_results ar).categories.map (fun p => p.2.missing)).sum ∧
    (build_structured_results ar).summary.mismatched =
      ((build_structured_results ar).categories.map (fun p => p.2.mismatched)).sum ∧
    (build_structured_results ar).summary.total =
      ((build_structured_results ar).categories.map (fun p => p.2.total)).sum ∧
    (0 < (build_structured_results ar).summary.total →
      (build_structured_results ar).summary.rate =
        ((build_structured_results ar).summary.found : Rat) /
          ((build_structured_results ar).summary.total : Rat)) := by
  have hcats : (build_structured_results ar).categories =
      ar.map (fun p => (p.1, buildCategoryStats p.1 p.2)) := rfl
  have hfound : (build_structured_results ar).summary.found = (tallyCounts ar).1 := rfl
  have hmissing : (build_structured_results ar).summary.missing = (tallyCounts ar).2.1 := rfl
  have hmismatch : (build_structured_results ar).summary.mismatched = (tallyCounts ar).2.2 := rfl
  have htotal : (build_structured_results ar).summary.total =
      (tallyCounts ar).1 + (tallyCounts ar).2.1 + (tallyCounts ar).2.2 := rfl
  refine ⟨?_, ?_, ?_, ?_, ?_, ?_⟩
  · intro p hp
    rw [hcats] at hp
    rcases List.mem_map.mp hp with ⟨q, _, rfl⟩
    exact buildCategoryStats_total q.1 q.2
  · rw [hfound, tallyCounts_eq, hcats, List.map_map]
    exact congrArg List.sum
      (List.map_congr_left (fun a _ => (buildCategoryStats_found a.1 a.2).symm))
  · rw [hmissing, tallyCounts_eq, hcats, List.map_map]
    exact congrArg List.sum
      (List.map_congr_left (fun a _ => (buildCategoryStats_missing a.1 a.2).symm))
  · rw [hmismatch, tallyCounts_eq, hcats, List.map_map]
    exact congrArg List.sum
      (List.map_congr_left (fun a _ => (buildCategoryStats_mismatched a.1 a.2).symm))
  · rw [htotal, tallyCounts_eq, hcats, List.map_map]
    have : ar.map ((fun p => p.2.total) ∘ fun p => (p.1, buildCategoryStats p.1 p.2)) =
        ar.map (fun p => countFound p.2 + countMissing p.2 + countMismatched p.2) := by
      apply List.map_congr_left
      intro a _
      show (buildCategoryStats a.1 a.2).total = _
      rw [buildCategoryStats_total, buildCategoryStats_found, buildCategoryStats_missing,
        buildCategoryStats_mismatched]
    rw [this, sum_map_add3]
  · intro h
    rw [htotal] at h
    show (if 0 < (tallyCounts ar).1 + (tallyCounts ar).2.1 + (tallyCounts ar).2.2 then
        ((tallyCounts ar).1 : Rat) /
          (((tallyCounts ar).1 + (tallyCounts ar).2.1 + (tallyCounts ar).2.2 : Nat) : Rat)
      else 1) = _
    rw [if_pos h]
    rfl

/-- Witness for C9: the invariant evaluated on a one-category run with one
found claim, and on a vacuous Topics category. -/
theorem c9_count_consistency_witness :
    (({ total := 0, found := 0, missing := 0, mismatched := 0, rate := 1,
          severity := "MINOR".data } : CategoryStats).total =
      ({ total := 0, found := 0, missing := 0, mismatched := 0, rate := 1,
          severity := "MINOR".data } : CategoryStats).found +
      ({ total := 0, found := 0, missing := 0, mismatched := 0, rate := 1,
          severity := "MINOR".data } : CategoryStats).missing +
      ({ total := 0, found := 0, missing := 0, mismatched := 0, rate := 1,
          severity := "MINOR".data } : CategoryStats).mismatched) ∧
    (build_structured_results [("Tools Used".data, [⟨"Read".data, "FOUND".data⟩])]).summary.rate =
      (((build_structured_results
          [("Tools Used".data, [⟨"Read".data, "FOUND".data⟩])]).summary.found : Rat) /
        ((build_structured_results
          [("Tools Used".data, [⟨"Read".data, "FOUND".data⟩])]).summary.total : Rat)) :=
  ⟨(c9_count_consistency [("Topics".data, [])]).1
      ("Topics".data,
        { total := 0, found := 0, missing := 0, mismatched := 0, rate := 1,
            severity := "MINOR".data }) (by decide),
   (c9_count_consistency [("Tools Used".data, [⟨"Read".data, "FOUND".data⟩])]).2.2.2.2.2
      (by decide)⟩

/-- Claim C2: the severity-weighted rate is the weighted found sum over the
weighted total sum (`1` when the denominator vanishes), lies in `[0, 1]`,
and equals `1` whenever every category's rate is `1`. -/
theorem c2_severity_weighted_rate (ar : List (Str × List VResult)) :
    (severityWeights (build_structured_results ar).categories).1 =
      ((build_structured_results ar).categories.map
        (fun p => p.2.found * SEVERITY_WEIGHT p.2.severity)).sum ∧
    (severityWeights (build_structured_results ar).categories).2 =
      ((build_structured_results ar).categories.map
        (fun p => p.2.total * SEVERITY_WEIGHT p.2.severity)).sum ∧
    (build_structured_results ar).summary.severity_weighted_rate =
      (if 0 < (severityWeights (build_structured_results ar).categories).2 then
        ((severityWeights (build_structured_results ar).categories).1 : Rat) /
          ((severityWeights (build_structured_results ar).categories).2 : Rat)
      else 1) ∧
    0 ≤ (build_structured_results ar).summary.severity_weighted_rate ∧
    (build_structured_results ar).summary.severity_weighted_rate ≤ 1 ∧
    ((∀ p ∈ (build_structured_results ar).categories, p.2.rate = 1) →
      (build_structured_results ar).summary.severity_weighted_rate = 1) := by
  have hswr : (build_structured_results ar).summary.severity_weighted_rate =
      (if 0 < (severityWeights (build_structured_results ar).categories).2 then
        ((severityWeights (build_structured_results ar).categories).1 : Rat) /
          ((severityWeights (build_structured_results ar).categories).2 : Rat)
      else 1) := rfl
  have hle := build_wf_le_wt ar
  refine ⟨by rw [severityWeights_eq], by rw [severityWeights_eq], hswr, ?_, ?_, ?_⟩
  · rw [hswr]
    split
    · positivity
    · norm_num
  · rw [hswr]
    split
    · rename_i hpos
      rw [div_le_one (by exact_mod_cast hpos)]
      exact_mod_cast hle
    · norm_num
  · intro hall
    have heq : (severityWeights (build_structured_results ar).categories).1 =
        (severityWeights (build_structured_results ar).categories).2 := by
      rw [severityWeights_eq]
      apply congrArg List.sum
      apply List.map_congr_left
      intro p hp
      have hrate := hall p hp
      rcases List.mem_map.mp hp with ⟨q, _, rfl⟩
      rw [buildCategoryStats_rate_one q.1 q.2 hrate]
    rw [hswr, heq]
    split
    · rename_i hpos
      exact div_self (by exact_mod_cast Nat.pos_iff_ne_zero.mp hpos)
    · rfl

/-- Witness for C2: a run whose only category is vacuous has every rate
equal to `1`, so its severity-weighted rate is `1`. -/
theorem c2_severity_weighted_rate_witness :
    (build_structured_results [("Tools Used".data, [])]).summary.severity_weighted_rate = 1 :=
  (c2_severity_weighted_rate [("Tools Used".data, [])]).2.2.2.2.2 (by decide)

lemma deepPassCategory_cases (rs : List VResult) (turns : List Turn) :
    deepPassCategory rs turns = rs ∨
    ∃ fd, deepPassCategory rs turns = rs.map (fun r =>
      if r.status == "MISSING".data && foundDeepLookup fd r.claim then
        { r with status := "FOUND (deep)".data }
      else r) := by
  by_cases h : ((rs.filter (fun r => r.status == "MISSING".data)).map VResult.claim).isEmpty
  · left
    show (if ((rs.filter (fun r => r.status == "MISSING".data)).map VResult.claim).isEmpty
          then rs
          else rs.map (fun r =>
            if r.status == "MISSING".data &&
                foundDeepLookup
                  (deep_search_missing
                    ((rs.filter (fun r => r.status == "MISSING".data)).map VResult.claim) turns)
                  r.claim then
              { r with status := "FOUND (deep)".data }
            else r)) = rs
    rw [if_pos h]
  · right
    refine ⟨deep_search_missing
      ((rs.filter (fun r => r.status == "MISSING".data)).map VResult.claim) turns, ?_⟩
    show (if ((rs.filter (fun r => r.status == "MISSING".data)).map VResult.claim).isEmpty
          then rs
          else rs.map (fun r =>
            if r.status == "MISSING".data &&
                foundDeepLookup
                  (deep_search_missing
                    ((rs.filter (fun r => r.status == "MISSING".data)).map VResult.claim) turns)
                  r.claim then
              { r with status := "FOUND (deep)".data }
            else r)) = _
    rw [if_neg h]

lemma deepPass_pointwise (rs : List VResult) (turns : List Turn) :
    ∀ p ∈ rs.zip (deepPassCategory rs turns),
      (p.1.status ≠ "MISSING".data → p.2 = p.1) ∧
      (p.2 ≠ p.1 →
        p.1.status = "MISSING".data ∧ p.2.status = "FOUND (deep)".data ∧
          p.2.claim = p.1.claim) := by
  rcases deepPassCategory_cases rs turns with h | ⟨fd, h⟩
  · rw [h]
    intro p hp
    have := mem_zip_self rs p hp
    exact ⟨fun _ => this, fun hne => absurd this hne⟩
  · rw [h]
    intro p hp
    have h2 := (mem_zip_map _ rs p hp).1
    by_cases hc : (p.1.status == "MISSING".data && foundDeepLookup fd p.1.claim) = true
    · rw [hc, if_pos rfl] at h2
      rcases Bool.and_eq_true_iff.mp hc with ⟨hm, _⟩
      refine ⟨fun hne => absurd (eq_of_beq hm) hne, fun _ => ?_⟩
      exact ⟨eq_of_beq hm, by rw [h2], by rw [h2]⟩
    · rw [if_neg (by simpa using hc)] at h2
      exact ⟨fun _ => h2, fun hne => absurd h2 hne⟩

/-- Claim C3: the deep-search pass of `run_audit` never downgrades a
status.  For every category of the results map, the pass preserves length
and, position by position, leaves every result whose status is not
`MISSING` (in particular every `FOUND` and every `MISMATCH` result)
unchanged; a result that changes at all was `MISSING` and becomes
`FOUND (deep)` with its claim text intact. -/
theorem c3_deep_pass_never_downgrades (all_results : List (Str × List VResult))
    (turns : List Turn) (c : Str) (rs : List VResult)
    (hmem : (c, rs) ∈ all_results) :
    (c, deepPassCategory rs turns) ∈ deepPassAll all_results turns ∧
    (deepPassCategory rs turns).length = rs.length ∧
    ∀ p ∈ rs.zip (deepPassCategory rs turns),
      (p.1.status = "FOUND".data → p.2 = p.1) ∧
      (p.1.status ≠ "MISSING".data → p.2 = p.1) ∧
      (p.2 ≠ p.1 →
        p.1.status = "MISSING".data ∧ p.2.status = "FOUND (deep)".data ∧
          p.2.claim = p.1.claim) := by
  refine ⟨?_, ?_, ?_⟩
  · exact List.mem_map_of_mem (fun p => (p.1, deepPassCategory p.2 turns)) hmem
  · rcases deepPassCategory_cases rs turns with h | ⟨fd, h⟩ <;> simp [h]
  · intro p hp
    have h := deepPass_pointwise rs turns p hp
    refine ⟨fun hf => h.1 ?_, h.1, h.2⟩
    rw [hf]
    decide

/-- Concrete category results used by the deep-pass witness. -/
def fpResults : List VResult :=
  [⟨"/a/b/tool.py".data, "MISSING".data⟩, ⟨"x.py".data, "FOUND".data⟩,
   ⟨"68 turns".data, "MISMATCH (archive: 71 turns)".data⟩]

/-- Concrete archive turns used by the deep-pass witness. -/
def fpTurns : List Turn := [⟨1, "user".data, [], "we edited tool.py".data⟩]

/-- Witness for C3: a three-result category (one found, one missing claim
that deep search locates in the turn text, one turn-count mismatch) run
through the deep pass; the missing claim is upgraded to `FOUND (deep)`
with its claim text intact. -/
theorem c3_deep_pass_never_downgrades_witness :
    (("File Paths".data, deepPassCategory fpResults fpTurns) ∈
      deepPassAll [("File Paths".data, fpResults)] fpTurns) ∧
    (deepPassCategory fpResults fpTurns).length = fpResults.length ∧
    ((⟨"/a/b/tool.py".data, "MISSING".data⟩ : VResult).status = "MISSING".data ∧
      (⟨"/a/b/tool.py".data, "FOUND (deep)".data⟩ : VResult).status = "FOUND (deep)".data ∧
      (⟨"/a/b/tool.py".data, "FOUND (deep)".data⟩ : VResult).claim =
        (⟨"/a/b/tool.py".data, "MISSING".data⟩ : VResult).claim) :=
  ⟨(c3_deep_pass_never_downgrades [("File Paths".data, fpResults)] fpTurns
      "File Paths".data fpResults (by decide)).1,
   (c3_deep_pass_never_downgrades [("File Paths".data, fpResults)] fpTurns
      "File Paths".data fpResults (by decide)).2.1,
   ((c3_deep_pass_never_downgrades [("File Paths".data, fpResults)] fpTurns
      "File Paths".data fpResults (by decide)).2.2
      (⟨"/a/b/tool.py".data, "MISSING".data⟩, ⟨"/a/b/tool.py".data, "FOUND (deep)".data⟩)
      (by decide)).2.2 (by decide)⟩

lemma deepPassCategory_singleton (r : VResult) (turns : List Turn) :
    deepPassCategory [r] turns =
      [if r.status == "MISSING".data &&
          deepSearchOne r.claim (allTurnText turns) then
        { r with status := "FOUND (deep)".data }
      else r] := by
  by_cases h : (r.status == "MISSING".data) = true
  · simp [deepPassCategory, deep_search_missing, foundDeepLookup, h, eq_of_beq h]
  · simp [deepPassCategory, h]

/-- Claim C10: for every quote, the recorded claim text is the
eighty-character truncation (`quote[:80] + '...'` when the quote is longer
than eighty characters, the quote itself otherwise), while the status is
computed from the full quote; the deep pass and the structured claim
records key on that truncated claim text. -/
theorem c10_quote_claim_truncation (quotes : List Str) (turns : List Turn) :
    ∀ p ∈ quotes.zip (verify_quotes quotes turns),
      p.2.claim = quoteDisplay p.1 ∧
      (80 < p.1.length → p.2.claim = p.1.take 80 ++ "...".data) ∧
      (p.1.length ≤ 80 → p.2.claim = p.1) ∧
      p.2.status = quoteStatus p.1 (userTurnText turns) ∧
      (∀ turns2 : List Turn, deepPassCategory [p.2] turns2 =
        [if p.2.status == "MISSING".data &&
            deepSearchOne p.2.claim (allTurnText turns2) then
          { p.2 with status := "FOUND (deep)".data }
        else p.2]) ∧
      ∀ (cat : Str) (idx : Nat), (mkClaimRecord cat idx p.2).claim = p.2.claim := by
  intro p hp
  have hp' : p ∈ quotes.zip (quotes.map (fun q =>
      ({ claim := quoteDisplay q,
         status := quoteStatus q (userTurnText turns) } : VResult))) := hp
  have h2 := (mem_zip_map _ quotes p hp').1
  refine ⟨by rw [h2], ?_, ?_, by rw [h2],
    fun turns2 => deepPassCategory_singleton p.2 turns2, fun cat idx => rfl⟩
  · intro hl
    rw [h2]
    show quoteDisplay p.1 = _
    unfold quoteDisplay
    rw [if_pos hl]
  · intro hl
    rw [h2]
    show quoteDisplay p.1 = _
    unfold quoteDisplay
    rw [if_neg (by omega), List.append_nil, List.take_of_length_le hl]

/-- Concrete long quote for the truncation witness (94 characters). -/
def q85 : Str :=
  "the quick brown fox jumps over the lazy dog while the curious cat watches carefully from afar".data

/-- The verification result produced for `q85` against an empty archive. -/
def r85 : VResult := ⟨q85.take 80 ++ "...".data, "MISSING".data⟩

/-- Witness for C10: a 94-character quote is recorded under its truncated
claim text while its status comes from the full quote. -/
theorem c10_quote_claim_truncation_witness :
    r85.claim = quoteDisplay q85 ∧
    r85.claim = q85.take 80 ++ "...".data ∧
    r85.status = quoteStatus q85 (userTurnText []) :=
  ⟨(c10_quote_claim_truncation [q85] [] (q85, r85) (by decide)).1,
   (c10_quote_claim_truncation [q85] [] (q85, r85) (by decide)).2.1 (by decide),
   (c10_quote_claim_truncation [q85] [] (q85, r85) (by decide)).2.2.2.1⟩

lemma turnMismatchStatus_ne_missing (n : Nat) :
    turnMismatchStatus n ≠ "MISSING".data := by
  intro h
  have h4 : (turnMismatchStatus n).take 4 = "MISS".data := by rw [h]; decide
  have h5 : (turnMismatchStatus n).take 4 = "MISM".data := rfl
  rw [h5] at h4
  exact absurd h4 (by decide)

lemma turnMismatchStatus_ne_found (n : Nat) :
    turnMismatchStatus n ≠ "FOUND".data := by
  intro h
  have h4 : (turnMismatchStatus n).take 4 = "FOUN".data := by rw [h]; decide
  have h5 : (turnMismatchStatus n).take 4 = "MISM".data := rfl
  rw [h5] at h4
  exact absurd h4 (by decide)

/-- Claim C7: `verify_turn_counts` reports `FOUND` exactly when the
claimed count equals the archive's recorded count, otherwise the
`MISMATCH (archive: N turns)` status carrying the actual count — never
`MISSING`. -/
theorem c7_turn_count_mismatch (claimed_counts : List Nat) (meta : ArchiveMeta) :
    ∀ p ∈ claimed_counts.zip (verify_turn_counts claimed_counts meta),
      (p.2.status = "FOUND".data ↔ p.1 = meta.turns) ∧
      (p.1 ≠ meta.turns → p.2.status = turnMismatchStatus meta.turns) ∧
      p.2.status ≠ "MISSING".data ∧
      p.2.claim = (Nat.repr p.1).data ++ " turns".data := by
  intro p hp
  have hp' : p ∈ claimed_counts.zip (claimed_counts.map (fun count =>
      ({ claim := (Nat.repr count).data ++ " turns".data,
         status := if count = meta.turns then "FOUND".data
                   else turnMismatchStatus meta.turns } : VResult))) := hp
  have h2 := (mem_zip_map _ claimed_counts p hp').1
  have hst : p.2.status =
      (if p.1 = meta.turns then "FOUND".data else turnMismatchStatus meta.turns) := by
    rw [h2]
  have hcl : p.2.claim = (Nat.repr p.1).data ++ " turns".data := by rw [h2]
  by_cases he : p.1 = meta.turns
  · rw [hst, if_pos he]
    exact ⟨⟨fun _ => he, fun _ => rfl⟩, fun hne => absurd he hne, by decide, hcl⟩
  · rw [hst, if_neg he]
    exact ⟨⟨fun h => absurd h (turnMismatchStatus_ne_found meta.turns), fun h => absurd h he⟩,
      fun _ => rfl, turnMismatchStatus_ne_missing meta.turns, hcl⟩

/-- Witness for C7: claiming 68 turns against an archive recording 71
yields `MISMATCH (archive: 71 turns)`. -/
theorem c7_turn_count_mismatch_witness :
    ((⟨"68 turns".data, "MISMATCH (archive: 71 turns)".data⟩ : VResult).status =
        turnMismatchStatus 71) ∧
    ((⟨"68 turns".data, "MISMATCH (archive: 71 turns)".data⟩ : VResult).status ≠
        "MISSING".data) ∧
    verify_turn_counts [68] ⟨[], 71⟩ =
      [⟨"68 turns".data, "MISMATCH (archive: 71 turns)".data⟩] :=
  ⟨(c7_turn_count_mismatch [68] ⟨[], 71⟩
      (68, ⟨"68 turns".data, "MISMATCH (archive: 71 turns)".data⟩) (by decide)).2.1
      (by decide),
   (c7_turn_count_mismatch [68] ⟨[], 71⟩
      (68, ⟨"68 turns".data, "MISMATCH (archive: 71 turns)".data⟩) (by decide)).2.2.1,
   by decide⟩

lemma quoteStatus_found_iff (q ut : Str) :
    (quoteStatus q ut = "FOUND".data ↔
      (quoteStrat1 (pyLower q) ut = true ∨ quoteStrat2 (pyLower q) ut = true ∨
       quoteStrat3 (pyLower q) ut = true)) ∧
    (quoteStatus q ut = "FOUND".data ∨ quoteStatus q ut = "MISSING".data) := by
  by_cases h1 : quoteStrat1 (pyLower q) ut
  · simp [quoteStatus, h1]
  · by_cases h2 : quoteStrat2 (pyLower q) ut
    · simp [quoteStatus, h1, h2]
    · by_cases h3 : quoteStrat3 (pyLower q) ut
      · simp [quoteStatus, h1, h2, h3]
      · simp [quoteStatus, h1, h2, h3]

/-- Claim C6 (amended): `verify_quotes` marks a quote `FOUND` exactly when
one of the three strategies succeeds on the lowercased joined user-turn
text — exact substring; the whitespace-stripped first forty characters,
provided the stripped prefix is longer than ten characters, as a
substring; or the sixty-per-cent significant-word overlap — and otherwise
marks it `MISSING`. -/
theorem c6_quote_found_iff_strategies (quotes : List Str) (turns : List Turn) :
    ∀ p ∈ quotes.zip (verify_quotes quotes turns),
      (p.2.status = "FOUND".data ↔
        (quoteStrat1 (pyLower p.1) (userTurnText turns) = true ∨
         quoteStrat2 (pyLower p.1) (userTurnText turns) = true ∨
         quoteStrat3 (pyLower p.1) (userTurnText turns) = true)) ∧
      (p.2.status = "FOUND".data ∨ p.2.status = "MISSING".data) := by
  intro p hp
  have hp' : p ∈ quotes.zip (quotes.map (fun q =>
      ({ claim := quoteDisplay q,
         status := quoteStatus q (userTurnText turns) } : VResult))) := hp
  have h2 := (mem_zip_map _ quotes p hp').1
  have hst : p.2.status = quoteStatus p.1 (userTurnText turns) := by rw [h2]
  rw [hst]
  exact quoteStatus_found_iff p.1 (userTurnText turns)

/-- The archive turn of the quote-matching scenario. -/
def scenTurn : Turn :=
  ⟨1, "user".data, [], "we should use a content-addressed cache for this".data⟩

/-- Witness for C6: the claimed quote `"use a content-addressed cache"`
is FOUND against the scenario turn text. -/
theorem c6_quote_found_iff_strategies_witness :
    ((⟨"use a content-addressed cache".data, "FOUND".data⟩ : VResult).status = "FOUND".data ↔
      (quoteStrat1 (pyLower "use a content-addressed cache".data) (userTurnText [scenTurn]) = true ∨
       quoteStrat2 (pyLower "use a content-addressed cache".data) (userTurnText [scenTurn]) = true ∨
       quoteStrat3 (pyLower "use a content-addressed cache".data) (userTurnText [scenTurn]) = true)) ∧
    verify_quotes ["use a content-addressed cache".data] [scenTurn] =
      [⟨"use a content-addressed cache".data, "FOUND".data⟩] :=
  ⟨(c6_quote_found_iff_strategies ["use a content-addressed cache".data] [scenTurn]
      ("use a content-addressed cache".data,
        ⟨"use a content-addressed cache".data, "FOUND".data⟩) (by decide)).1,
   by decide⟩

/-- The quote of the C6 counterexample: longer than forty characters and
starting with a space, so the implemented strategy 2 strips the leading
space while the specified strategy 2 does not. -/
def q6 : Str :=
  " aaaaa bbbbb ccccc ddddd eeeee fffff ggggg hhhhh iiiii jjjjj kkkkk".data

/-- The archive turn of the C6 counterexample: exactly the stripped
forty-character prefix of the quote. -/
def t6 : Turn := ⟨1, "user".data, [], "aaaaa bbbbb ccccc ddddd eeeee fffff ggg".data⟩

/-- Counterexample to C6 as stated: `verify_quotes` marks `q6` FOUND, yet
none of the three strategies as the claim words them — exact substring,
the raw first forty characters as a substring, word overlap — succeeds. -/
theorem c6_quote_found_iff_strategies_counterexample :
    quoteStatus q6 (userTurnText [t6]) = "FOUND".data ∧
    quoteStrat1 (pyLower q6) (userTurnText [t6]) = false ∧
    quoteStrat2Spec (pyLower q6) (userTurnText [t6]) = false ∧
    quoteStrat3 (pyLower q6) (userTurnText [t6]) = false ∧
    quoteStatusSpec q6 (userTurnText [t6]) = "MISSING".data := by
  refine ⟨?_, ?_, ?_, ?_, ?_⟩ <;> decide

/-- Claim C4 (amended): every extractor is a deterministic function of its
explicit inputs — equal summary texts give equal claim lists for file
paths, tools, user quotes, turn counts and functions/classes, and equal
texts with equal blacklist file states give equal topic lists.  Topic
extraction, however, depends on the blacklist that `_load_blacklist`
reads from `semantic_map.json` on disk, not on the summary text alone
(see the counterexample). -/
theorem c4_extraction_deterministic (t1 t2 : Str) (b1 b2 : Option (List Str))
    (ht : t1 = t2) (hb : load_blacklist b1 = load_blacklist b2) :
    extract_file_claims t1 = extract_file_claims t2 ∧
    extract_tool_claims t1 = extract_tool_claims t2 ∧
    extract_user_quotes t1 = extract_user_quotes t2 ∧
    extract_turn_count_claims t1 = extract_turn_count_claims t2 ∧
    extract_function_claims t1 = extract_function_claims t2 ∧
    extract_topic_claims t1 (load_blacklist b1) =
      extract_topic_claims t2 (load_blacklist b2) := by
  subst ht
  rw [hb]
  exact ⟨rfl, rfl, rfl, rfl, rfl, rfl⟩

/-- Witness for C4: the extractors applied twice to the same text. -/
theorem c4_extraction_deterministic_witness :
    extract_file_claims "see /foo/bar/baz.py".data =
      extract_file_claims "see /foo/bar/baz.py".data ∧
    extract_tool_claims "see /foo/bar/baz.py".data =
      extract_tool_claims "see /foo/bar/baz.py".data ∧
    extract_user_quotes "see /foo/bar/baz.py".data =
      extract_user_quotes "see /foo/bar/baz.py".data ∧
    extract_turn_count_claims "see /foo/bar/baz.py".data =
      extract_turn_count_claims "see /foo/bar/baz.py".data ∧
    extract_function_claims "see /foo/bar/baz.py".data =
      extract_function_claims "see /foo/bar/baz.py".data ∧
    extract_topic_claims "see /foo/bar/baz.py".data (load_blacklist none) =
      extract_topic_claims "see /foo/bar/baz.py".data (load_blacklist none) :=
  c4_extraction_deterministic "see /foo/bar/baz.py".data "see /foo/bar/baz.py".data
    none none rfl rfl

/-- Counterexample to C4 as stated: topic extraction is not a function of
the summary text alone — on the same text `"BCPX"` it returns different
claim lists for different states of the `semantic_map.json` blacklist
that `_load_blacklist` reads from disk, so it is neither free of
input/output nor deterministic across calls. -/
theorem c4_extraction_deterministic_counterexample :
    extract_topic_claims "BCPX".data (load_blacklist none) = ["BCPX".data] ∧
    extract_topic_claims "BCPX".data (load_blacklist (some ["BCPX".data])) = [] ∧
    extract_topic_claims "BCPX".data (load_blacklist none) ≠
      extract_topic_claims "BCPX".data (load_blacklist (some ["BCPX".data])) := by
  refine ⟨?_, ?_, ?_⟩ <;> decide

lemma keys_nodup_mem_eq {β : Type} (l : List (Str × β))
    (hnd : (l.map Prod.fst).Nodup) {a : Str} {b c : β}
    (hb : (a, b) ∈ l) (hc : (a, c) ∈ l) : b = c := by
  induction l with
  | nil => cases hb
  | cons x t ih =>
    rw [List.map_cons, List.nodup_cons] at hnd
    rcases List.mem_cons.mp hb with hb1 | hb2
    · rcases List.mem_cons.mp hc with hc1 | hc2
      · exact congrArg Prod.snd (hb1.trans hc1.symm)
      · exfalso
        apply hnd.1
        have hx1 : x.1 = a := by rw [← hb1]
        rw [hx1]
        exact List.mem_map_of_mem Prod.fst hc2
    · rcases List.mem_cons.mp hc with hc1 | hc2
      · exfalso
        apply hnd.1
        have hx1 : x.1 = a := by rw [← hc1]
        rw [hx1]
        exact List.mem_map_of_mem Prod.fst hb2
      · exact ih hnd.2 hb2 hc2

/-- Claim C5: `detect_regressions` flags a category exactly when its
current rate is strictly below the preceding run's rate for it (default
`1.0` when the category is new), reporting both rates; every flagged entry
records a strict drop; and the orchestration variant flags a category
exactly when it appears in both runs and its rounded percentage dropped by
more than five points. -/
theorem c5_regression_detection (current previous : RunCategories)
    (cat : Str) (stats : CategoryStats)
    (hmem : (cat, stats) ∈ current.categories)
    (hnd : (current.categories.map Prod.fst).Nodup) :
    detect_regressions current none = [] ∧
    (({ severity := stats.severity, category := cat,
        prev_rate := prevRateFor previous.categories cat,
        curr_rate := stats.rate } : RegressionEntry) ∈
        detect_regressions current (some previous) ↔
      stats.rate < prevRateFor previous.categories cat) ∧
    (∀ e ∈ detect_regressions current (some previous), e.curr_rate < e.prev_rate) ∧
    (∀ pp cp : Int,
      (({ category := cat, previous := pp, current := cp } : AutoRegression) ∈
          autoarchive_regressions previous current ↔
        ∃ q : Str × CategoryStats,
          previous.categories.find? (fun x => x.1 == cat) = some q ∧
          pp = toPercent q.2.rate ∧ cp = toPercent stats.rate ∧ cp < pp - 5)) := by
  refine ⟨rfl, ⟨?_, ?_⟩, ?_, ?_⟩
  · intro h
    rcases List.mem_filterMap.mp h with ⟨p, hp, hf⟩
    by_cases hc : p.2.rate < prevRateFor previous.categories p.1
    · rw [if_pos hc] at hf
      have he := Option.some.inj hf
      have hcat : p.1 = cat := congrArg RegressionEntry.category he
      have hrate : p.2.rate = stats.rate := congrArg RegressionEntry.curr_rate he
      rw [← hrate, ← hcat]
      exact hc
    · rw [if_neg hc] at hf
      cases hf
  · intro hlt
    apply List.mem_filterMap.mpr
    exact ⟨(cat, stats), hmem, by rw [if_pos hlt]⟩
  · intro e he
    rcases List.mem_filterMap.mp he with ⟨p, hp, hf⟩
    by_cases hc : p.2.rate < prevRateFor previous.categories p.1
    · rw [if_pos hc] at hf
      have he2 := Option.some.inj hf
      rw [← he2]
      exact hc
    · rw [if_neg hc] at hf
      cases hf
  · intro pp cp
    constructor
    · intro h
      rcases List.mem_filterMap.mp h with ⟨p, hp, hf⟩
      rcases hfind : previous.categories.find? (fun x => x.1 == p.1) with _ | q
      · rw [hfind] at hf
        dsimp only at hf
        cases hf
      · rw [hfind] at hf
        dsimp only at hf
        by_cases hlt : toPercent p.2.rate < toPercent q.2.rate - 5
        · rw [if_pos hlt] at hf
          have he := Option.some.inj hf
          have hcat : p.1 = cat := congrArg AutoRegression.category he
          have hpp : toPercent q.2.rate = pp := congrArg AutoRegression.previous he
          have hcp : toPercent p.2.rate = cp := congrArg AutoRegression.current he
          have hps : p.2 = stats := by
            apply keys_nodup_mem_eq current.categories hnd _ hmem
            rw [← hcat]
            exact hp
          refine ⟨q, by rw [← hcat]; exact hfind, hpp.symm, ?_, ?_⟩
          · rw [← hcp, hps]
          · rw [← hcp, ← hpp]
            exact hlt
        · rw [if_neg hlt] at hf
          cases hf
    · rintro ⟨q, hq, hpp, hcp, hlt⟩
      apply List.mem_filterMap.mpr
      refine ⟨(cat, stats), hmem, ?_⟩
      dsimp only
      rw [hq]
      dsimp only
      rw [if_pos (by rw [hpp, hcp] at hlt; exact hlt)]
      rw [← hpp, ← hcp]

/-- Previous run of the regression scenario: both categories at rate 0.9. -/
def scenPrevRun : RunCategories :=
  ⟨[("Category A".data, ⟨10, 9, 1, 0, mkRat 9 10, "MINOR".data⟩),
    ("Category B".data, ⟨10, 9, 1, 0, mkRat 9 10, "MINOR".data⟩)]⟩

/-- Current run of the regression scenario: rates 0.9 and 0.6. -/
def scenCurrRun : RunCategories :=
  ⟨[("Category A".data, ⟨10, 9, 1, 0, mkRat 9 10, "MINOR".data⟩),
    ("Category B".data, ⟨10, 6, 4, 0, mkRat 6 10, "MINOR".data⟩)]⟩

/-- Witness for C5: with consecutive category rates `[0.9, 0.9]` then
`[0.9, 0.6]`, exactly the second category is flagged, with previous rate
`0.9` and current rate `0.6`; the orchestration variant flags the same
thirty-point percentage drop. -/
theorem c5_regression_detection_witness :
    (⟨"MINOR".data, "Category B".data, mkRat 9 10, mkRat 6 10⟩ : RegressionEntry) ∈
      detect_regressions scenCurrRun (some scenPrevRun) ∧
    detect_regressions scenCurrRun (some scenPrevRun) =
      [⟨"MINOR".data, "Category B".data, mkRat 9 10, mkRat 6 10⟩] ∧
    (⟨"Category B".data, 90, 60⟩ : AutoRegression) ∈
      autoarchive_regressions scenPrevRun scenCurrRun :=
  ⟨(c5_regression_detection scenCurrRun scenPrevRun "Category B".data
      ⟨10, 6, 4, 0, mkRat 6 10, "MINOR".data⟩ (by decide) (by decide)).2.1.mpr (by decide),
   by decide,
   ((c5_regression_detection scenCurrRun scenPrevRun "Category B".data
      ⟨10, 6, 4, 0, mkRat 6 10, "MINOR".data⟩ (by decide) (by decide)).2.2.2 90 60).mpr
     ⟨("Category B".data, ⟨10, 9, 1, 0, mkRat 9 10, "MINOR".data⟩),
      by decide, by decide, by decide, by decide⟩⟩

lemma perm_insertSorted (le : α → α → Bool) (x : α) :
    ∀ l : List α, List.Perm (insertSorted le x l) (x :: l)
  | [] => List.Perm.refl _
  | y :: t => by
    unfold insertSorted
    split
    · exact List.Perm.refl _
    · exact List.Perm.trans ((perm_insertSorted le x t).cons y) (List.Perm.swap x y t)

lemma perm_insort (le : α → α → Bool) :
    ∀ l : List α, List.Perm (insort le l) l
  | [] => List.Perm.refl _
  | x :: t =>
    List.Perm.trans (perm_insertSorted le x (insort le t)) ((perm_insort le t).cons x)

lemma mem_dedupKeepGo [BEq α] [LawfulBEq α] (a : α) :
    ∀ (seen l : List α), a ∈ dedupKeepGo seen l ↔ a ∈ l ∧ a ∉ seen := by
  intro seen l
  induction l generalizing seen with
  | nil => simp [dedupKeepGo]
  | cons x t ih =>
    unfold dedupKeepGo
    by_cases hx : seen.contains x
    · rw [if_pos hx, ih]
      constructor
      · exact fun ⟨ht, hs⟩ => ⟨List.mem_cons_of_mem x ht, hs⟩
      · rintro ⟨hm, hs⟩
        rcases List.mem_cons.mp hm with rfl | ht
        · exact absurd (List.elem_iff.mp hx) hs
        · exact ⟨ht, hs⟩
    · rw [if_neg hx]
      constructor
      · intro hm
        rcases List.mem_cons.mp hm with rfl | ht
        · exact ⟨List.mem_cons_self a t, fun hs => hx (List.elem_iff.mpr hs)⟩
        · have := (ih (x :: seen)).mp ht
          exact ⟨List.mem_cons_of_mem x this.1,
            fun hs => this.2 (List.mem_cons_of_mem x hs)⟩
      · rintro ⟨hm, hs⟩
        rcases List.mem_cons.mp hm with rfl | ht
        · exact List.mem_cons_self a _
        · by_cases hax : a = x
          · subst hax; exact List.mem_cons_self a _
          · exact List.mem_cons_of_mem x ((ih (x :: seen)).mpr
              ⟨ht, fun hm2 => (List.mem_cons.mp hm2).elim hax hs⟩)

lemma nodup_dedupKeepGo [BEq α] [LawfulBEq α] :
    ∀ (seen l : List α), (dedupKeepGo seen l).Nodup := by
  intro seen l
  induction l generalizing seen with
  | nil => simp [dedupKeepGo]
  | cons x t ih =>
    unfold dedupKeepGo
    by_cases hx : seen.contains x
    · rw [if_pos hx]; exact ih seen
    · rw [if_neg hx]
      refine List.nodup_cons.mpr ⟨?_, ih (x :: seen)⟩
      intro hmem
      exact ((mem_dedupKeepGo x (x :: seen) t).mp hmem).2 (List.mem_cons_self x seen)

lemma mem_dedupKeep [BEq α] [LawfulBEq α] (a : α) (l : List α) :
    a ∈ dedupKeep l ↔ a ∈ l := by
  unfold dedupKeep
  rw [mem_dedupKeepGo]
  simp

lemma mem_allClaimKeys (o r : List ClaimRecord) (k : Str × Str) :
    k ∈ allClaimKeys o r ↔ k ∈ (o ++ r).map claimKey := by
  unfold allClaimKeys
  rw [(perm_insort pairLe _).mem_iff, mem_dedupKeep]

lemma nodup_allClaimKeys (o r : List ClaimRecord) : (allClaimKeys o r).Nodup := by
  unfold allClaimKeys
  rw [(perm_insort pairLe _).nodup_iff]
  exact nodup_dedupKeepGo [] _

lemma dictLast_mem (l : List ClaimRecord) (k : Str × Str) (c : ClaimRecord)
    (h : dictLast l k = some c) : c ∈ l ∧ claimKey c = k := by
  unfold dictLast at h
  have hm := List.mem_filter.mp (List.mem_of_mem_getLast? h)
  exact ⟨hm.1, eq_of_beq hm.2⟩

lemma dictLast_self (l : List ClaimRecord)
    (hnd : (l.map claimKey).Nodup) (c : ClaimRecord) (hc : c ∈ l) :
    dictLast l (claimKey c) = some c := by
  induction l with
  | nil => cases hc
  | cons x t ih =>
    rw [List.map_cons, List.nodup_cons] at hnd
    rcases List.mem_cons.mp hc with rfl | hct
    · have hfilter : t.filter (fun y => claimKey y == claimKey c) = [] := by
        rw [List.filter_eq_nil_iff]
        intro y hy hbeq
        exact hnd.1 (eq_of_beq hbeq ▸ List.mem_map_of_mem claimKey hy)
      unfold dictLast
      rw [List.filter_cons_of_pos (by simp), hfilter]
      rfl
    · have hne : (claimKey x == claimKey c) = false := by
        rcases hbeq : claimKey x == claimKey c with _ | _
        · rfl
        · exfalso
          exact hnd.1 (eq_of_beq hbeq ▸ List.mem_map_of_mem claimKey hct)
      unfold dictLast at ih ⊢
      rw [List.filter_cons_of_neg (by simp [hne])]
      exact ih hnd.2 hct

lemma dictLast_none (l : List ClaimRecord) (k : Str × Str) :
    dictLast l k = none ↔ ∀ c ∈ l, claimKey c ≠ k := by
  unfold dictLast
  rw [List.getLast?_eq_none_iff, List.filter_eq_nil_iff]
  constructor
  · intro h c hc hk
    exact h c hc (by simp [hk])
  · intro h c hc hbeq
    exact h c hc (eq_of_beq hbeq)

lemma filterMap_key_mem {β : Type} [DecidableEq β] (keys : List (Str × Str))
    (f : Str × Str → Option β) (keyOf : β → Str × Str)
    (hinj : ∀ k d, f k = some d → k = keyOf d) (d : β) :
    d ∈ keys.filterMap f ↔ keyOf d ∈ keys ∧ f (keyOf d) = some d := by
  constructor
  · intro h
    rcases List.mem_filterMap.mp h with ⟨k, hk, hf⟩
    have := hinj k d hf
    subst this
    exact ⟨hk, hf⟩
  · rintro ⟨hk, hf⟩
    exact List.mem_filterMap.mpr ⟨_, hk, hf⟩

lemma compare_claims_nil_nil :
    compare_claims [] [] =
      { unchanged := 0, upgraded := [], downgraded := [], new_claims := [],
        removed_claims := [], note := some "both empty".data } := rfl

lemma compare_claims_nil (rerun : List ClaimRecord) (h : rerun ≠ []) :
    compare_claims [] rerun =
      { unchanged := 0, upgraded := [], downgraded := [],
        new_claims := rerun.map (fun c =>
          { claim := c.claim, category := c.category, status := c.status }),
        removed_claims := [], note := some "original had no per-claim data".data } := by
  have he : rerun.isEmpty = false := by
    cases rerun
    · exact absurd rfl h
    · rfl
  unfold compare_claims
  rw [he]
  rfl

lemma compare_claims_general (orig rerun : List ClaimRecord) (ho : orig ≠ []) :
    compare_claims orig rerun =
      { unchanged := ((allClaimKeys orig rerun).filter (fun k =>
          match dictLast orig k, dictLast rerun k with
          | some o, some r => o.status == r.status
          | _, _ => false)).length,
        upgraded := (allClaimKeys orig rerun).filterMap (fun k =>
          match dictLast orig k, dictLast rerun k with
          | some o, some r =>
            if o.status == r.status then none
            else if (o.status == "MISSING".data || o.status == "MISMATCH".data)
                    && r.status == "FOUND".data then
              some { claim := k.2, category := k.1, original := o.status, rerun := r.status }
            else if o.status == "FOUND".data
                    && (r.status == "MISSING".data || r.status == "MISMATCH".data) then
              none
            else
              some { claim := k.2, category := k.1, original := o.status, rerun := r.status }
          | _, _ => none),
        downgraded := (allClaimKeys orig rerun).filterMap (fun k =>
          match dictLast orig k, dictLast rerun k with
          | some o, some r =>
            if o.status == r.status then none
            else if (o.status == "MISSING".data || o.status == "MISMATCH".data)
                    && r.status == "FOUND".data then none
            else if o.status == "FOUND".data
                    && (r.status == "MISSING".data || r.status == "MISMATCH".data) then
              some { claim := k.2, category := k.1, original := o.status, rerun := r.status }
            else none
          | _, _ => none),
        new_claims := (allClaimKeys orig rerun).filterMap (fun k =>
          match dictLast orig k, dictLast rerun k with
          | none, some r => some { claim := k.2, category := k.1, status := r.status }
          | _, _ => none),
        removed_claims := (allClaimKeys orig rerun).filterMap (fun k =>
          match dictLast orig k, dictLast rerun k with
          | some o, none => some { claim := k.2, category := k.1, status := o.status }
          | _, _ => none),
        note := none } := by
  have he : orig.isEmpty = false := by
    cases orig
    · exact absurd rfl ho
    · rfl
  unfold compare_claims
  rw [he]
  rfl

lemma fUp_key (orig rerun : List ClaimRecord) (k : Str × Str) (d : ClaimDelta)
    (hf : (match dictLast orig k, dictLast rerun k with
           | some o, some r =>
             if o.status == r.status then none
             else if (o.status == "MISSING".data || o.status == "MISMATCH".data)
                     && r.status == "FOUND".data then
               some { claim := k.2, category := k.1, original := o.status, rerun := r.status }
             else if o.status == "FOUND".data
                     && (r.status == "MISSING".data || r.status == "MISMATCH".data) then
               none
             else
               some ({ claim := k.2, category := k.1, original := o.status,
                       rerun := r.status } : ClaimDelta)
           | _, _ => none) = some d) :
    k = (d.category, d.claim) := by
  rcases hO : dictLast orig k with _ | o <;> rcases hR : dictLast rerun k with _ | r <;>
    rw [hO, hR] at hf <;> dsimp only at hf
  · cases hf
  · cases hf
  · cases hf
  · by_cases h1 : (o.status == r.status) = true
    · rw [if_pos h1] at hf
      cases hf
    · rw [if_neg h1] at hf
      by_cases h2 : ((o.status == "MISSING".data || o.status == "MISMATCH".data)
          && r.status == "FOUND".data) = true
      · rw [if_pos h2] at hf
        rw [← Option.some.inj hf]
      · rw [if_neg h2] at hf
        by_cases h3 : (o.status == "FOUND".data
            && (r.status == "MISSING".data || r.status == "MISMATCH".data)) = true
        · rw [if_pos h3] at hf
          cases hf
        · rw [if_neg h3] at hf
          rw [← Option.some.inj hf]

lemma fDown_key (orig rerun : List ClaimRecord) (k : Str × Str) (d : ClaimDelta)
    (hf : (match dictLast orig k, dictLast rerun k with
           | some o, some r =>
             if o.status == r.status then none
             else if (o.status == "MISSING".data || o.status == "MISMATCH".data)
                     && r.status == "FOUND".data then none
             else if o.status == "FOUND".data
                     && (r.status == "MISSING".data || r.status == "MISMATCH".data) then
               some { claim := k.2, category := k.1, original := o.status, rerun := r.status }
             else none
           | _, _ => none) = some d) :
    k = (d.category, d.claim) := by
  rcases hO : dictLast orig k with _ | o <;> rcases hR : dictLast rerun k with _ | r <;>
    rw [hO, hR] at hf <;> dsimp only at hf
  · cases hf
  · cases hf
  · cases hf
  · by_cases h1 : (o.status == r.status) = true
    · rw [if_pos h1] at hf
      cases hf
    · rw [if_neg h1] at hf
      by_cases h2 : ((o.status == "MISSING".data || o.status == "MISMATCH".data)
          && r.status == "FOUND".data) = true
      · rw [if_pos h2] at hf
        cases hf
      · rw [if_neg h2] at hf
        by_cases h3 : (o.status == "FOUND".data
            && (r.status == "MISSING".data || r.status == "MISMATCH".data)) = true
        · rw [if_pos h3] at hf
          rw [← Option.some.inj hf]
        · rw [if_neg h3] at hf
          cases hf

lemma fNew_key (orig rerun : List ClaimRecord) (k : Str × Str) (d : ClaimStatusRec)
    (hf : (match dictLast orig k, dictLast rerun k with
           | none, some r => some ({ claim := k.2, category := k.1,
                                     status := r.status } : ClaimStatusRec)
           | _, _ => none) = some d) :
    k = (d.category, d.claim) := by
  rcases hO : dictLast orig k with _ | o <;> rcases hR : dictLast rerun k with _ | r <;>
    rw [hO, hR] at hf <;> dsimp only at hf
  · cases hf
  · rw [← Option.some.inj hf]
  · cases hf
  · cases hf

lemma fRemoved_key (orig rerun : List ClaimRecord) (k : Str × Str) (d : ClaimStatusRec)
    (hf : (match dictLast orig k, dictLast rerun k with
           | some o, none => some ({ claim := k.2, category := k.1,
                                     status := o.status } : ClaimStatusRec)
           | _, _ => none) = some d) :
    k = (d.category, d.claim) := by
  rcases hO : dictLast orig k with _ | o <;> rcases hR : dictLast rerun k with _ | r <;>
    rw [hO, hR] at hf <;> dsimp only at hf
  · cases hf
  · cases hf
  · rw [← Option.some.inj hf]
  · cases hf

lemma upChain_some_iff (o r : ClaimRecord) (k : Str × Str) :
    ((if o.status == r.status then none
      else if (o.status == "MISSING".data || o.status == "MISMATCH".data)
              && r.status == "FOUND".data then
        some { claim := k.2, category := k.1, original := o.status, rerun := r.status }
      else if o.status == "FOUND".data
              && (r.status == "MISSING".data || r.status == "MISMATCH".data) then
        none
      else
        some ({ claim := k.2, category := k.1, original := o.status,
                rerun := r.status } : ClaimDelta)) =
      some { claim := k.2, category := k.1, original := o.status, rerun := r.status }) ↔
    (o.status ≠ r.status ∧
      ¬(o.status = "FOUND".data ∧
        (r.status = "MISSING".data ∨ r.status = "MISMATCH".data))) := by
  by_cases h1 : o.status = r.status
  · rw [if_pos (beq_iff_eq.mpr h1)]
    simp [h1]
  · rw [if_neg (fun hb => h1 (eq_of_beq hb))]
    by_cases h3 : o.status = "FOUND".data ∧
        (r.status = "MISSING".data ∨ r.status = "MISMATCH".data)
    · have h2f : ¬(((o.status == "MISSING".data || o.status == "MISMATCH".data)
          && r.status == "FOUND".data) = true) := by
        rw [h3.1]
        intro hb
        rw [Bool.and_eq_true] at hb
        exact absurd hb.1 (by decide)
      have h3t : (o.status == "FOUND".data
          && (r.status == "MISSING".data || r.status == "MISMATCH".data)) = true := by
        rcases h3 with ⟨hF, hr⟩
        rw [hF]
        rcases hr with hr | hr <;> rw [hr] <;> rfl
      rw [if_neg h2f, if_pos h3t]
      simp [h3]
    · by_cases h2 : ((o.status == "MISSING".data || o.status == "MISMATCH".data)
          && r.status == "FOUND".data) = true
      · rw [if_pos h2]
        simp [h1, h3]
      · have h3f : ¬((o.status == "FOUND".data
            && (r.status == "MISSING".data || r.status == "MISMATCH".data)) = true) := by
          intro hb
          apply h3
          rcases Bool.and_eq_true_iff.mp hb with ⟨ha, hb2⟩
          refine ⟨eq_of_beq ha, ?_⟩
          rw [Bool.or_eq_true] at hb2
          rcases hb2 with hb2 | hb2
          · exact Or.inl (eq_of_beq hb2)
          · exact Or.inr (eq_of_beq hb2)
        rw [if_neg h2, if_neg h3f]
        simp [h1, h3]

lemma downChain_some_iff (o r : ClaimRecord) (k : Str × Str) :
    ((if o.status == r.status then none
      else if (o.status == "MISSING".data || o.status == "MISMATCH".data)
              && r.status == "FOUND".data then none
      else if o.status == "FOUND".data
              && (r.status == "MISSING".data || r.status == "MISMATCH".data) then
        some { claim := k.2, category := k.1, original := o.status, rerun := r.status }
      else none) =
      some ({ claim := k.2, category := k.1, original := o.status,
              rerun := r.status } : ClaimDelta)) ↔
    (o.status = "FOUND".data ∧
      (r.status = "MISSING".data ∨ r.status = "MISMATCH".data)) := by
  by_cases h3 : o.status = "FOUND".data ∧
      (r.status = "MISSING".data ∨ r.status = "MISMATCH".data)
  · have h1f : ¬((o.status == r.status) = true) := by
      intro hb
      have := eq_of_beq hb
      rcases h3 with ⟨hF, hr | hr⟩ <;> rw [hF, hr] at this <;> cases this
    have h2f : ¬(((o.status == "MISSING".data || o.status == "MISMATCH".data)
        && r.status == "FOUND".data) = true) := by
      rw [h3.1]
      intro hb
      rw [Bool.and_eq_true] at hb
      exact absurd hb.1 (by decide)
    have h3t : (o.status == "FOUND".data
        && (r.status == "MISSING".data || r.status == "MISMATCH".data)) = true := by
      rcases h3 with ⟨hF, hr⟩
      rw [hF]
      rcases hr with hr | hr <;> rw [hr] <;> rfl
    rw [if_neg h1f, if_neg h2f, if_pos h3t]
    simp [h3]
  · by_cases h1 : (o.status == r.status) = true
    · rw [if_pos h1]
      simp [h3]
    · rw [if_neg h1]
      by_cases h2 : ((o.status == "MISSING".data || o.status == "MISMATCH".data)
          && r.status == "FOUND".data) = true
      · rw [if_pos h2]
        simp [h3]
      · have h3f : ¬((o.status == "FOUND".data
            && (r.status == "MISSING".data || r.status == "MISMATCH".data)) = true) := by
          intro hb
          apply h3
          rcases Bool.and_eq_true_iff.mp hb with ⟨ha, hb2⟩
          refine ⟨eq_of_beq ha, ?_⟩
          rw [Bool.or_eq_true] at hb2
          rcases hb2 with hb2 | hb2
          · exact Or.inl (eq_of_beq hb2)
          · exact Or.inr (eq_of_beq hb2)
        rw [if_neg h2, if_neg h3f]
        simp [h3]

lemma mem_upgraded_iff (orig rerun : List ClaimRecord)
    (hno : (orig.map claimKey).Nodup) (hnr : (rerun.map claimKey).Nodup)
    (ho : orig ≠ []) (o : ClaimRecord) (hoM : o ∈ orig) (r : ClaimRecord)
    (hrM : r ∈ rerun) (hk : claimKey o = claimKey r) :
    ((⟨o.claim, o.category, o.status, r.status⟩ : ClaimDelta) ∈
        (compare_claims orig rerun).upgraded) ↔
      (o.status ≠ r.status ∧
        ¬(o.status = "FOUND".data ∧
          (r.status = "MISSING".data ∨ r.status = "MISMATCH".data))) := by
  rw [compare_claims_general orig rerun ho]
  dsimp only
  rw [filterMap_key_mem _ _ (fun d => (d.category, d.claim)) (fUp_key orig rerun)]
  have hkeys : ((o.category, o.claim) : Str × Str) ∈ allClaimKeys orig rerun := by
    rw [mem_allClaimKeys]
    exact List.mem_map_of_mem claimKey (List.mem_append_left _ hoM)
  rw [and_iff_right hkeys]
  have hO : dictLast orig (o.category, o.claim) = some o := dictLast_self orig hno o hoM
  have hR : dictLast rerun (o.category, o.claim) = some r := by
    have h := dictLast_self rerun hnr r hrM
    rw [← hk] at h
    exact h
  rw [hO, hR]
  exact upChain_some_iff o r (o.category, o.claim)

lemma mem_downgraded_iff (orig rerun : List ClaimRecord)
    (hno : (orig.map claimKey).Nodup) (hnr : (rerun.map claimKey).Nodup)
    (ho : orig ≠ []) (o : ClaimRecord) (hoM : o ∈ orig) (r : ClaimRecord)
    (hrM : r ∈ rerun) (hk : claimKey o = claimKey r) :
    ((⟨o.claim, o.category, o.status, r.status⟩ : ClaimDelta) ∈
        (compare_claims orig rerun).downgraded) ↔
      (o.status = "FOUND".data ∧
        (r.status = "MISSING".data ∨ r.status = "MISMATCH".data)) := by
  rw [compare_claims_general orig rerun ho]
  dsimp only
  rw [filterMap_key_mem _ _ (fun d => (d.category, d.claim)) (fDown_key orig rerun)]
  have hkeys : ((o.category, o.claim) : Str × Str) ∈ allClaimKeys orig rerun := by
    rw [mem_allClaimKeys]
    exact List.mem_map_of_mem claimKey (List.mem_append_left _ hoM)
  rw [and_iff_right hkeys]
  have hO : dictLast orig (o.category, o.claim) = some o := dictLast_self orig hno o hoM
  have hR : dictLast rerun (o.category, o.claim) = some r := by
    have h := dictLast_self rerun hnr r hrM
    rw [← hk] at h
    exact h
  rw [hO, hR]
  exact downChain_some_iff o r (o.category, o.claim)

lemma mem_new_claims_of (orig rerun : List ClaimRecord)
    (hnr : (rerun.map claimKey).Nodup) (ho : orig ≠ [])
    (r : ClaimRecord) (hrM : r ∈ rerun)
    (hnone : ∀ o ∈ orig, claimKey o ≠ claimKey r) :
    (⟨r.claim, r.category, r.status⟩ : ClaimStatusRec) ∈
      (compare_claims orig rerun).new_claims := by
  rw [compare_claims_general orig rerun ho]
  dsimp only
  apply List.mem_filterMap.mpr
  refine ⟨claimKey r, ?_, ?_⟩
  · rw [mem_allClaimKeys]
    exact List.mem_map_of_mem claimKey (List.mem_append_right _ hrM)
  · have hO : dictLast orig (claimKey r) = none := (dictLast_none _ _).mpr hnone
    have hR : dictLast rerun (claimKey r) = some r := dictLast_self rerun hnr r hrM
    rw [hO, hR]
    rfl

lemma of_mem_new_claims (orig rerun : List ClaimRecord) (ho : orig ≠ [])
    (e : ClaimStatusRec) (he : e ∈ (compare_claims orig rerun).new_claims) :
    ∃ r ∈ rerun, e = ⟨r.claim, r.category, r.status⟩ ∧
      ∀ o ∈ orig, claimKey o ≠ claimKey r := by
  rw [compare_claims_general orig rerun ho] at he
  dsimp only at he
  rcases List.mem_filterMap.mp he with ⟨k, hk, hf⟩
  rcases hO : dictLast orig k with _ | o' <;> rcases hR : dictLast rerun k with _ | r' <;>
    rw [hO, hR] at hf <;> dsimp only at hf
  · cases hf
  · have hm := dictLast_mem rerun k r' hR
    refine ⟨r', hm.1, ?_, ?_⟩
    · rw [← Option.some.inj hf, ← hm.2]
      rfl
    · intro o ho' hkey
      exact (dictLast_none orig k).mp hO o ho' (hkey.trans hm.2)
  · cases hf
  · cases hf

lemma mem_removed_claims_of (orig rerun : List ClaimRecord)
    (hno : (orig.map claimKey).Nodup) (ho : orig ≠ [])
    (o : ClaimRecord) (hoM : o ∈ orig)
    (hnone : ∀ r ∈ rerun, claimKey r ≠ claimKey o) :
    (⟨o.claim, o.category, o.status⟩ : ClaimStatusRec) ∈
      (compare_claims orig rerun).removed_claims := by
  rw [compare_claims_general orig rerun ho]
  dsimp only
  apply List.mem_filterMap.mpr
  refine ⟨claimKey o, ?_, ?_⟩
  · rw [mem_allClaimKeys]
    exact List.mem_map_of_mem claimKey (List.mem_append_left _ hoM)
  · have hO : dictLast orig (claimKey o) = some o := dictLast_self orig hno o hoM
    have hR : dictLast rerun (claimKey o) = none := (dictLast_none _ _).mpr hnone
    rw [hO, hR]
    rfl

lemma of_mem_removed_claims (orig rerun : List ClaimRecord) (ho : orig ≠ [])
    (e : ClaimStatusRec) (he : e ∈ (compare_claims orig rerun).removed_claims) :
    ∃ o ∈ orig, e = ⟨o.claim, o.category, o.status⟩ ∧
      ∀ r ∈ rerun, claimKey r ≠ claimKey o := by
  rw [compare_claims_general orig rerun ho] at he
  dsimp only at he
  rcases List.mem_filterMap.mp he with ⟨k, hk, hf⟩
  rcases hO : dictLast orig k with _ | o' <;> rcases hR : dictLast rerun k with _ | r' <;>
    rw [hO, hR] at hf <;> dsimp only at hf
  · cases hf
  · cases hf
  · have hm := dictLast_mem orig k o' hO
    refine ⟨o', hm.1, ?_, ?_⟩
    · rw [← Option.some.inj hf, ← hm.2]
      rfl
    · intro r hr' hkey
      exact (dictLast_none rerun k).mp hR r hr' (hkey.trans hm.2)
  · cases hf

lemma unchanged_count_eq (orig rerun : List ClaimRecord)
    (hno : (orig.map claimKey).Nodup) (ho : orig ≠ []) :
    (compare_claims orig rerun).unchanged =
      (orig.filter (fun o =>
        match dictLast rerun (claimKey o) with
        | some r => o.status == r.status
        | none => false)).length := by
  rw [compare_claims_general orig rerun ho]
  dsimp only
  unfold allClaimKeys
  rw [((perm_insort pairLe (dedupKeep ((orig ++ rerun).map claimKey))).filter _).length_eq]
  have hperm2 : List.Perm
      ((dedupKeep ((orig ++ rerun).map claimKey)).filter (fun k =>
        match dictLast orig k, dictLast rerun k with
        | some o, some r => o.status == r.status
        | _, _ => false))
      ((orig.map claimKey).filter (fun k =>
        match dictLast orig k, dictLast rerun k with
        | some o, some r => o.status == r.status
        | _, _ => false)) := by
    apply (List.perm_ext_iff_of_nodup ((nodup_dedupKeepGo [] _).filter _) (hno.filter _)).mpr
    intro k
    rw [List.mem_filter, List.mem_filter, mem_dedupKeepGo]
    simp only [List.not_mem_nil, not_false_eq_true, and_true]
    constructor
    · rintro ⟨hkL, hP⟩
      refine ⟨?_, hP⟩
      rcases hO : dictLast orig k with _ | o'
      · rcases hR : dictLast rerun k with _ | r' <;> rw [hO, hR] at hP <;>
          dsimp only at hP <;> cases hP
      · have hm := dictLast_mem orig k o' hO
        rw [← hm.2]
        exact List.mem_map_of_mem claimKey hm.1
    · rintro ⟨hkA, hP⟩
      refine ⟨?_, hP⟩
      rw [List.map_append]
      exact List.mem_append_left _ hkA
  rw [hperm2.length_eq, List.filter_map, List.length_map]
  congr 1
  apply List.filter_congr
  intro o hoM
  show (match dictLast orig (claimKey o), dictLast rerun (claimKey o) with
        | some o', some r => o'.status == r.status
        | _, _ => false) = _
  rw [dictLast_self orig hno o hoM]
  rcases hR : dictLast rerun (claimKey o) with _ | r <;> rfl

/-- Claim C8 (amended): `compare_claims` matches claims by their
`(category, claim text)` pair, never by id.  The unchanged counter counts
exactly the matched pairs with equal statuses; a matched pair is
downgraded exactly when the original status is `FOUND` and the rerun
status is `MISSING` or `MISMATCH`; a matched pair lands in the upgraded
list exactly when the statuses differ and the pair does not match the
downgrade pattern — so not only `MISSING|MISMATCH -> FOUND` but every
other status change as well; claims whose key appears only in the rerun
are exactly the newly-appearing ones and claims whose key appears only in
the original are exactly the no-longer-appearing ones. -/
theorem c8_compare_claims_classification (orig rerun : List ClaimRecord)
    (hno : (orig.map claimKey).Nodup) (hnr : (rerun.map claimKey).Nodup) :
    ((compare_claims orig rerun).unchanged =
      (orig.filter (fun o =>
        match dictLast rerun (claimKey o) with
        | some r => o.status == r.status
        | none => false)).length) ∧
    (∀ o ∈ orig, ∀ r ∈ rerun, claimKey o = claimKey r →
      (((⟨o.claim, o.category, o.status, r.status⟩ : ClaimDelta) ∈
          (compare_claims orig rerun).upgraded) ↔
        (o.status ≠ r.status ∧
          ¬(o.status = "FOUND".data ∧
            (r.status = "MISSING".data ∨ r.status = "MISMATCH".data)))) ∧
      (((⟨o.claim, o.category, o.status, r.status⟩ : ClaimDelta) ∈
          (compare_claims orig rerun).downgraded) ↔
        (o.status = "FOUND".data ∧
          (r.status = "MISSING".data ∨ r.status = "MISMATCH".data)))) ∧
    (∀ r ∈ rerun, (∀ o ∈ orig, claimKey o ≠ claimKey r) →
      (⟨r.claim, r.category, r.status⟩ : ClaimStatusRec) ∈
        (compare_claims orig rerun).new_claims) ∧
    (∀ e ∈ (compare_claims orig rerun).new_claims,
      ∃ r ∈ rerun, e = ⟨r.claim, r.category, r.status⟩ ∧
        ∀ o ∈ orig, claimKey o ≠ claimKey r) ∧
    (∀ o ∈ orig, (∀ r ∈ rerun, claimKey r ≠ claimKey o) →
      (⟨o.claim, o.category, o.status⟩ : ClaimStatusRec) ∈
        (compare_claims orig rerun).removed_claims) ∧
    (∀ e ∈ (compare_claims orig rerun).removed_claims,
      ∃ o ∈ orig, e = ⟨o.claim, o.category, o.status⟩ ∧
        ∀ r ∈ rerun, claimKey r ≠ claimKey o) := by
  by_cases ho : orig = []
  · subst ho
    by_cases hr : rerun = []
    · subst hr
      rw [compare_claims_nil_nil]
      exact ⟨rfl, fun o hoM => absurd hoM (List.not_mem_nil o),
        fun r hrM => absurd hrM (List.not_mem_nil r),
        fun e heM => absurd heM (List.not_mem_nil e),
        fun o hoM => absurd hoM (List.not_mem_nil o),
        fun e heM => absurd heM (List.not_mem_nil e)⟩
    · rw [compare_claims_nil rerun hr]
      refine ⟨rfl, fun o hoM => absurd hoM (List.not_mem_nil o), ?_, ?_,
        fun o hoM => absurd hoM (List.not_mem_nil o),
        fun e heM => absurd heM (List.not_mem_nil e)⟩
      · intro r hrM _
        exact List.mem_map_of_mem _ hrM
      · intro e heM
        rcases List.mem_map.mp heM with ⟨r, hrM, hre⟩
        exact ⟨r, hrM, hre.symm, fun o hoM => absurd hoM (List.not_mem_nil o)⟩
  · refine ⟨unchanged_count_eq orig rerun hno ho, ?_, ?_, ?_, ?_, ?_⟩
    · intro o hoM r hrM hk
      exact ⟨mem_upgraded_iff orig rerun hno hnr ho o hoM r hrM hk,
             mem_downgraded_iff orig rerun hno hnr ho o hoM r hrM hk⟩
    · intro r hrM hnone
      exact mem_new_claims_of orig rerun hnr ho r hrM hnone
    · intro e heM
      exact of_mem_new_claims orig rerun ho e heM
    · intro o hoM hnone
      exact mem_removed_claims_of orig rerun hno ho o hoM hnone
    · intro e heM
      exact of_mem_removed_claims orig rerun ho e heM

/-- Original claim record of the C8 counterexample. -/
def o8 : ClaimRecord :=
  ⟨"t-1".data, "Turn Counts".data, "68 turns".data, "MISSING".data, "INFO".data,
   "none".data⟩

/-- Rerun claim record of the C8 counterexample: same key, status
`MISMATCH` instead of `MISSING`. -/
def r8 : ClaimRecord :=
  ⟨"t-1".data, "Turn Counts".data, "68 turns".data, "MISMATCH".data, "INFO".data,
   "none".data⟩

/-- Counterexample to C8 as stated: the matched pair `MISSING -> MISMATCH`
is classified into the `upgraded` list although its rerun status is not
`FOUND` (and it is not downgraded), refuting "upgraded exactly when the
original status is MISSING or MISMATCH and the rerun status is FOUND". -/
theorem c8_compare_claims_classification_counterexample :
    (compare_claims [o8] [r8]).upgraded =
      [⟨"68 turns".data, "Turn Counts".data, "MISSING".data, "MISMATCH".data⟩] ∧
    "MISMATCH".data ≠ "FOUND".data ∧
    (compare_claims [o8] [r8]).downgraded = [] := by
  refine ⟨?_, ?_, ?_⟩ <;> decide

/-- Witness for C8: the classification applied to the one-claim runs of
the counterexample. -/
theorem c8_compare_claims_classification_witness :
    ((⟨"68 turns".data, "Turn Counts".data, "MISSING".data, "MISMATCH".data⟩ : ClaimDelta) ∈
      (compare_claims [o8] [r8]).upgraded) ∧
    (compare_claims [o8] [r8]).unchanged =
      (([o8]).filter (fun o =>
        match dictLast [r8] (claimKey o) with
        | some r => o.status == r.status
        | none => false)).length :=
  ⟨((c8_compare_claims_classification [o8] [r8] (by decide) (by decide)).2.1
      o8 (by decide) r8 (by decide) (by decide)).1.mpr (by decide),
   (c8_compare_claims_classification [o8] [r8] (by decide) (by decide)).1⟩
